import Mathlib

/-!
LifeKit admin dashboard: badges, filters and sorts, categories, session, page handlers.

A shallow embedding of the client-side logic of `src/App.jsx`, `src/lib/axios.js`,
`src/components/Layout.jsx` and the pages `Transactions`, `Events`, `Settings`, `Login`,
`Feeds`, `Dashboard`, `Activities` and `Analytics` under `src/pages/`.

* Records fetched from the backend are JSON objects. A property is modelled by
  `Field α`: absent (`undefined`), `null`, or a value of the type the data
  model gives it.
* JavaScript numbers are modelled by `JsNum`: `NaN`, the two infinities, or a
  finite value held as a rational. The division `/` rounds the exact quotient
  to the nearest IEEE-754 binary64 value, ties to even (`binary64`);
  `Math.round` and `Math.max` are exact on doubles. The sign of zero is not
  modelled.
* `Date.now()`, the string parser behind `new Date(string)` and
  `String.prototype.toLowerCase` are environment functions; they are taken as
  parameters (`now`, `parseDate`, `toLowerCase`).
* Arrays are objects with identity. `Heap` maps references to array contents,
  so that in-place `sort` and the allocating `filter` / spread can be told
  apart.
* Handlers that await requests take what each request settles to as an
  argument and return the state they leave with the effects they cause.
  `Browser` holds `localStorage`, the path and the navigations carried out.
-/

namespace LifeKit

/-! ## JavaScript values -/

/-- A property of a fetched record: absent, `null`, or a value. -/
inductive Field (α : Type) where
  | undefined
  | null
  | val (a : α)
  deriving DecidableEq

/-- JavaScript number: `NaN`, `±Infinity` (`neg = true` for `-Infinity`) or a finite value. -/
inductive JsNum where
  | nan
  | inf (neg : Bool)
  | fin (q : ℚ)
  deriving DecidableEq

/-- Truthiness of a string-valued property: only a non-empty string is truthy. -/
def Field.truthyStr : Field String → Bool
  | .val s => s != ""
  | _ => false

/-- The expression `a || b` on string-valued properties. -/
def jsOrStr (a b : Field String) : Field String :=
  if a.truthyStr then a else b

/-- The coercion `ToNumber` on a number-valued property: `undefined` is `NaN`, `null` is `0`. -/
def Field.toNumber : Field ℚ → JsNum
  | .undefined => .nan
  | .null => .fin 0
  | .val q => .fin q

/-- The nearest integer, a tie going to the even one. -/
def roundHalfEven (x : ℚ) : ℤ :=
  if x - ⌊x⌋ < 1 / 2 then ⌊x⌋
  else if 1 / 2 < x - ⌊x⌋ then ⌊x⌋ + 1
  else if ⌊x⌋ % 2 = 0 then ⌊x⌋ else ⌊x⌋ + 1

/-- The exponent of the unit in the last place of the binary64 values around `q`: 52 below
the binary exponent of `q`, which is not taken below that of the subnormal numbers. -/
def quantum (q : ℚ) : ℤ :=
  max (Int.log 2 |q|) (-1022) - 52

/-- The IEEE-754 binary64 value an exact result `q` is rounded to (round to nearest, ties to
even): a multiple of the unit in the last place with a significand of at most 53 bits, or an
infinity when the rounded magnitude reaches `2 ^ 1024`. -/
def binary64 (q : ℚ) : JsNum :=
  if q = 0 then .fin 0
  else if (2 : ℚ) ^ (1024 : ℤ) ≤ |(roundHalfEven (q / 2 ^ quantum q) : ℚ) * 2 ^ quantum q| then
    .inf (decide (q < 0))
  else .fin (roundHalfEven (q / 2 ^ quantum q) * 2 ^ quantum q)

/-- The division `a / b` of JavaScript numbers: the exact quotient of two finite numbers is
rounded to binary64. -/
def JsNum.div : JsNum → JsNum → JsNum
  | .nan, _ => .nan
  | _, .nan => .nan
  | .inf _, .inf _ => .nan
  | .inf n, .fin q => .inf (if q < 0 then !n else n)
  | .fin _, .inf _ => .fin 0
  | .fin a, .fin b =>
    if b = 0 then (if a = 0 then .nan else .inf (decide (a < 0)))
    else binary64 (a / b)

/-- The function `Math.round`: nearest integer, halves towards `+Infinity`. -/
def mathRound : JsNum → JsNum
  | .fin q => .fin (⌊q + 1 / 2⌋ : ℤ)
  | x => x

/-- The function `Math.max` on two numbers. -/
def mathMax : JsNum → JsNum → JsNum
  | .nan, _ => .nan
  | _, .nan => .nan
  | .inf false, _ => .inf false
  | _, .inf false => .inf false
  | .inf true, y => y
  | x, .inf true => x
  | .fin a, .fin b => .fin (max a b)

/-- The time value of `new Date(v)`: `none` is an Invalid Date, `new Date(null)` is the epoch. -/
def newDate (parseDate : String → Option ℤ) : Field String → Option ℤ
  | .undefined => none
  | .null => some 0
  | .val s => parseDate s

/-- The date-fns predicate `isPast`: the time value is strictly before `Date.now()`. -/
def isPast (date : Option ℤ) (now : ℤ) : Bool :=
  match date with
  | some t => decide (t < now)
  | none => false

/-- The date-fns predicate `isFuture`: the time value is strictly after `Date.now()`. -/
def isFuture (date : Option ℤ) (now : ℤ) : Bool :=
  match date with
  | some t => decide (now < t)
  | none => false

/-! ## Records -/

/-- The provider profile joined into a service. -/
structure Profile where
  full_name : Field String
  deriving DecidableEq

/-- The service joined into a booking. -/
structure Service where
  title : Field String
  price : Field ℚ
  profiles : Field Profile
  deriving DecidableEq

/-- A booking as returned by `/admin/bookings/all`. -/
structure Booking where
  id : ℕ
  status : Field String
  scheduled_time : Field String
  created_at : Field String
  total_price : Field ℚ
  services : Field Service
  deriving DecidableEq

/-- The status badge of a booking card. -/
structure Badge where
  label : String
  bg : String
  text : String
  deriving DecidableEq

/-! ## `BookingCard` -/

namespace BookingCard

/-- The constant `date` of `BookingCard`: `new Date(booking.scheduled_time || booking.created_at)`. -/
def date (parseDate : String → Option ℤ) (booking : Booking) : Option ℤ :=
  newDate parseDate (jsOrStr booking.scheduled_time booking.created_at)

/-- The variable `statusBadge` of `BookingCard` once the branches have run. -/
def statusBadge (parseDate : String → Option ℤ) (now : ℤ) (booking : Booking) : Badge :=
  let isDatePast := isPast (date parseDate booking) now
  if booking.status = .val "completed" then
    ⟨"Completed", "bg-green-50", "text-green-600"⟩
  else if booking.status = .val "cancelled" then
    ⟨"Cancelled", "bg-red-50", "text-red-600"⟩
  else if isDatePast then
    if booking.status = .val "confirmed" then
      ⟨"Ongoing", "bg-yellow-50", "text-yellow-600"⟩
    else if booking.status = .val "pending" then
      ⟨"Expired", "bg-gray-100", "text-gray-500"⟩
    else
      ⟨"Upcoming", "bg-blue-50", "text-blue-600"⟩
  else
    ⟨"Upcoming", "bg-blue-50", "text-blue-600"⟩

/-- The expression `service?.price`, with `service = booking.services`. -/
def servicePrice (booking : Booking) : Field ℚ :=
  match booking.services with
  | .val service => service.price
  | _ => .undefined

/-- The constant `hourlyRate`: `service?.price || 50`. -/
def hourlyRate (booking : Booking) : ℚ :=
  match servicePrice booking with
  | .val p => if p != 0 then p else 50
  | _ => 50

/-- The constant `calculatedHours`: `Math.max(1, Math.round(booking.total_price / hourlyRate))`. -/
def calculatedHours (booking : Booking) : JsNum :=
  mathMax (.fin 1) (mathRound (booking.total_price.toNumber.div (.fin (hourlyRate booking))))

end BookingCard

/-! ## Arrays as heap objects -/

/-- The array objects allocated so far; a reference is an index into the list. -/
abbrev Heap (α : Type) := List (List α)

/-- The contents of the array behind a reference. -/
def Heap.read {α : Type} (h : Heap α) (r : ℕ) : List α :=
  h.getD r []

/-- A fresh array object holding `xs`; returns the new heap and the new reference. -/
def Heap.alloc {α : Type} (h : Heap α) (xs : List α) : Heap α × ℕ :=
  (h ++ [xs], h.length)

/-- Overwrite the contents of the array behind `r`. -/
def Heap.write {α : Type} (h : Heap α) (r : ℕ) (xs : List α) : Heap α :=
  h.set r xs

/-- The stable sort of ECMAScript (2019 and later) for a comparator `cmp`: `a` stays before `b`
unless `cmp a b > 0`. Insertion from the right keeps equal elements in their original order. -/
def jsSort {α : Type} (cmp : α → α → ℚ) (l : List α) : List α :=
  List.insertionSort (fun a b => cmp a b ≤ 0) l

/-- The expression `[...a]`: a fresh array with the elements of `a`. -/
def spread {α : Type} (h : Heap α) (a : ℕ) : Heap α × ℕ :=
  h.alloc (h.read a)

/-- The call `a.filter(p)`: a fresh array; `a` is not written. -/
def arrayFilter {α : Type} (h : Heap α) (a : ℕ) (p : α → Bool) : Heap α × ℕ :=
  h.alloc ((h.read a).filter p)

/-- The call `a.sort(cmp)`: sorts the array behind `a` in place. -/
def arraySort {α : Type} (h : Heap α) (a : ℕ) (cmp : α → α → ℚ) : Heap α :=
  h.write a (jsSort cmp (h.read a))

/-- The call `s.includes(t)` on strings: `t` occurs in `s` as a contiguous substring. -/
def jsIncludes (s t : String) : Bool :=
  decide (t.data <:+: s.data)

/-! ## `Events` -/

/-- An event as returned by `/events`. `price` is its numeric price and `event_date` the time
value of `new Date(e.event_date)`; the creation form refuses an event without date or price. -/
structure Event where
  id : ℕ
  status : Field String
  price : ℚ
  event_date : ℤ
  deriving DecidableEq

namespace Events

/-- The status step of `getProcessedEvents`: `result = result.filter(...)` for the filters
`Active` and `Inactive`, nothing for any other filter. -/
def filterByStatus (h : Heap Event) (result : ℕ) (filterStatus : String) : Heap Event × ℕ :=
  if filterStatus = "Active" then arrayFilter h result (fun e => e.status = .val "Active")
  else if filterStatus = "Inactive" then arrayFilter h result (fun e => e.status = .val "Inactive")
  else (h, result)

/-- The price step of `getProcessedEvents`: `result.sort(...)` for `High` and `Low`. -/
def sortByPrice (h : Heap Event) (result : ℕ) (sortPrice : String) : Heap Event :=
  if sortPrice = "High" then arraySort h result (fun a b => b.price - a.price)
  else if sortPrice = "Low" then arraySort h result (fun a b => a.price - b.price)
  else h

/-- The date step of `getProcessedEvents`: `result.sort(...)` for `Newest` and `Oldest`. -/
def sortByDate (h : Heap Event) (result : ℕ) (sortDate : String) : Heap Event :=
  if sortDate = "Newest" then
    arraySort h result (fun a b => ((b.event_date - a.event_date : ℤ) : ℚ))
  else if sortDate = "Oldest" then
    arraySort h result (fun a b => ((a.event_date - b.event_date : ℤ) : ℚ))
  else h

/-- The function `getProcessedEvents` of `Events`, reading the state variables `events`,
`filterStatus`, `sortPrice` and `sortDate`: copy, status step, price step, date step. Returns
the heap it leaves and the reference of the array it returns. -/
def getProcessedEvents (h : Heap Event) (events : ℕ) (filterStatus sortPrice sortDate : String) :
    Heap Event × ℕ :=
  let s0 := spread h events
  let s1 := filterByStatus s0.1 s0.2 filterStatus
  let h2 := sortByPrice s1.1 s1.2 sortPrice
  let h3 := sortByDate h2 s1.2 sortDate
  (h3, s1.2)

/-- The events a status filter lets through. -/
def keptByStatus (filterStatus : String) (e : Event) : Bool :=
  if filterStatus = "Active" then e.status = .val "Active"
  else if filterStatus = "Inactive" then e.status = .val "Inactive"
  else true

/-- The constant `processedEvents`: the contents of the array `getProcessedEvents()` returns. -/
def processedEvents (h : Heap Event) (events : ℕ) (filterStatus sortPrice sortDate : String) :
    List Event :=
  (getProcessedEvents h events filterStatus sortPrice sortDate).1.read
    (getProcessedEvents h events filterStatus sortPrice sortDate).2

end Events

/-! ## `Transactions` -/

namespace Transactions

/-- The expression `b.services?.profiles?.full_name`. -/
def fullName (b : Booking) : Field String :=
  match b.services with
  | .val s =>
    match s.profiles with
    | .val p => p.full_name
    | _ => .undefined
  | _ => .undefined

/-- The expression `b.services?.title`. -/
def title (b : Booking) : Field String :=
  match b.services with
  | .val s => s.title
  | _ => .undefined

/-- Truthiness of `f?.toLowerCase().includes(lowerTerm)`. -/
def lowerIncludes (toLowerCase : String → String) (f : Field String) (lowerTerm : String) : Bool :=
  match f with
  | .val s => jsIncludes (toLowerCase s) lowerTerm
  | _ => false

/-- The search predicate of the filter effect, for the lower-cased term. -/
def searchMatches (toLowerCase : String → String) (lowerTerm : String) (b : Booking) : Bool :=
  lowerIncludes toLowerCase (fullName b) lowerTerm || lowerIncludes toLowerCase (title b) lowerTerm

/-- The predicate of the `Completed` tab. -/
def isCompletedTab (b : Booking) : Bool :=
  b.status = .val "completed" || b.status = .val "active"

/-- The predicate of the `Upcoming` tab. -/
def isUpcomingTab (parseDate : String → Option ℤ) (now : ℤ) (b : Booking) : Bool :=
  (b.status = .val "confirmed" || b.status = .val "pending") &&
    isFuture (newDate parseDate (jsOrStr b.scheduled_time b.created_at)) now

/-- Step A of the filter effect ("Filter by Tab"): `result = result.filter(...)` for the tabs
`Completed` and `Upcoming`, nothing for any other tab. -/
def filterByTab (parseDate : String → Option ℤ) (now : ℤ) (h : Heap Booking) (result : ℕ)
    (statusFilter : String) : Heap Booking × ℕ :=
  if statusFilter = "Completed" then arrayFilter h result isCompletedTab
  else if statusFilter = "Upcoming" then arrayFilter h result (isUpcomingTab parseDate now)
  else (h, result)

/-- Step B of the filter effect ("Filter by Search"): `result = result.filter(...)` when
`searchTerm` is truthy, that is, not the empty string. -/
def filterBySearch (toLowerCase : String → String) (h : Heap Booking) (result : ℕ)
    (searchTerm : String) : Heap Booking × ℕ :=
  if searchTerm ≠ "" then
    arrayFilter h result (searchMatches toLowerCase (toLowerCase searchTerm))
  else (h, result)

/-- The filter effect of `Transactions`, reading the state variables `bookings`, `statusFilter`
and `searchTerm`: `let result = bookings`, step A, step B. Returns the heap it leaves and the
reference passed to `setFilteredBookings`. -/
def filterBookings (parseDate : String → Option ℤ) (toLowerCase : String → String) (now : ℤ)
    (h : Heap Booking) (bookings : ℕ) (statusFilter searchTerm : String) : Heap Booking × ℕ :=
  let s1 := filterByTab parseDate now h bookings statusFilter
  filterBySearch toLowerCase s1.1 s1.2 searchTerm

/-- The bookings a tab lets through. -/
def passesTab (parseDate : String → Option ℤ) (now : ℤ) (statusFilter : String) (b : Booking) :
    Bool :=
  if statusFilter = "Completed" then isCompletedTab b
  else if statusFilter = "Upcoming" then isUpcomingTab parseDate now b
  else true

/-- The state variable `filteredBookings` after the filter effect has run. -/
def filteredBookings (parseDate : String → Option ℤ) (toLowerCase : String → String) (now : ℤ)
    (h : Heap Booking) (bookings : ℕ) (statusFilter searchTerm : String) : List Booking :=
  (filterBookings parseDate toLowerCase now h bookings statusFilter searchTerm).1.read
    (filterBookings parseDate toLowerCase now h bookings statusFilter searchTerm).2

end Transactions

/-! ## JSON values and effects -/

/-- A JSON value. -/
inductive Json where
  | null
  | bool (b : Bool)
  | num (q : ℚ)
  | str (s : String)
  | arr (items : List Json)
  | obj (props : List (String × Json))

/-- What a handler does to the outside: a dialog, or a request through the `api` client. -/
inductive Effect where
  | alert (msg : String)
  | request (method url : String) (body : Option Json)

/-! ## `Settings`: the category navigator -/

/-- A category as returned by `/admin/categories`; identifiers are strings. -/
structure Category where
  id : String
  name : String
  description : Field String
  parent_category_id : Field String
  deriving DecidableEq

/-- The state variable `newCatForm`. -/
structure CatForm where
  name : String
  description : String
  deriving DecidableEq

namespace Settings

/-- The constant `displayedCategories`, from the state variables `categories` and
`selectedParent` (`none` is `null`; a category object is truthy). -/
def displayedCategories (categories : List Category) (selectedParent : Option Category) :
    List Category :=
  match selectedParent with
  | some p => categories.filter (fun c => c.parent_category_id = .val p.id)
  | none => categories.filter (fun c => !c.parent_category_id.truthyStr)

/-- The click handler of a category card, `!selectedParent && setSelectedParent(cat)`: the
value of `selectedParent` after the click. -/
def cardClick (selectedParent : Option Category) (cat : Category) : Option Category :=
  match selectedParent with
  | none => some cat
  | some p => some p

/-- The click handler of the Back button, `setSelectedParent(null)`. -/
def backClick (_selectedParent : Option Category) : Option Category :=
  none

/-- The values `selectedParent` can take, starting from `null`, by clicks on the elements the
page renders: a card of `displayedCategories`, or the Back button, rendered while a parent is
open. -/
inductive Reachable (categories : List Category) : Option Category → Prop where
  | init : Reachable categories none
  | card {sel : Option Category} {cat : Category} :
      Reachable categories sel → cat ∈ displayedCategories categories sel →
      Reachable categories (cardClick sel cat)
  | back {sel : Option Category} :
      Reachable categories sel → sel ≠ none → Reachable categories (backClick sel)


/-- The state variables of `Settings` the category handlers read and write. -/
structure State where
  categories : List Category
  selectedParent : Option Category
  newCatForm : CatForm

/-- The constant `payload` of `handleAddCategory`. -/
def addPayload (st : State) : Json :=
  .obj [("name", .str st.newCatForm.name),
    ("description", .str st.newCatForm.description),
    ("parent_id",
      match st.selectedParent with
      | some p => .str p.id
      | none => .null)]

/-- The function `handleAddCategory`. `postResult` and `getResult` are what the two awaited
requests settle to: `.error msg` is a rejection whose message
`e.response?.data?.error || e.message` is `msg`, `.ok` a fulfilment. Returns the state left and
the effects in the order they happen. -/
def handleAddCategory (st : State) (postResult : Except String Unit)
    (getResult : Except String (List Category)) : State × List Effect :=
  if st.newCatForm.name = "" then
    (st, [.alert "Please enter a category name"])
  else
    let post := Effect.request "POST" "/admin/categories" (some (addPayload st))
    match postResult with
    | .error msg => (st, [post, .alert ("Failed to add category: " ++ msg)])
    | .ok _ =>
      let st1 := { st with newCatForm := ⟨"", ""⟩ }
      let get := Effect.request "GET" "/admin/categories" none
      match getResult with
      | .error msg => (st1, [post, get, .alert ("Failed to add category: " ++ msg)])
      | .ok data =>
        ({ st1 with categories := data },
          [post, get,
            .alert (if st.selectedParent.isSome then "Sub-Category added!"
              else "Main Category added!")])

/-- The function `handleDeleteCategory`. `confirmed` is the answer to `window.confirm`,
`deleteResult` what the awaited request settles to. Returns the state left and the effects in
the order they happen. -/
def handleDeleteCategory (st : State) (id : String) (confirmed : Bool)
    (deleteResult : Except String Unit) : State × List Effect :=
  if !confirmed then (st, [])
  else
    let del := Effect.request "DELETE" ("/admin/categories/" ++ id) none
    match deleteResult with
    | .ok _ => ({ st with categories := st.categories.filter (fun c => c.id != id) }, [del])
    | .error _ => (st, [del, .alert "Failed to delete"])

/-- The requests among the effects of a handler. -/
def requests : List Effect → List (String × String)
  | [] => []
  | .request method url _ :: es => (method, url) :: requests es
  | .alert _ :: es => requests es

end Settings

/-! ## The browser: local storage and location -/

/-- Property assignment `o[k] = v` on the property list of an object: an existing property
keeps its place, a new one is added at the end. -/
def setProp {α : Type} (props : List (String × α)) (k : String) (v : α) : List (String × α) :=
  if props.any (fun p => p.1 == k) then
    props.map (fun p => if p.1 == k then (k, v) else p)
  else props ++ [(k, v)]

/-- The part of the browser the client reads and writes: `localStorage`,
`window.location.pathname`, and the navigations carried out so far, oldest first. -/
structure Browser where
  localStorage : List (String × String)
  pathname : String
  navigations : List String

/-- The call `localStorage.getItem(k)`; `none` is `null`. -/
def Browser.getItem (b : Browser) (k : String) : Option String :=
  b.localStorage.lookup k

/-- The call `localStorage.setItem(k, v)`. -/
def Browser.setItem (b : Browser) (k v : String) : Browser :=
  { b with localStorage := setProp b.localStorage k v }

/-- The call `localStorage.clear()`. -/
def Browser.clear (b : Browser) : Browser :=
  { b with localStorage := [] }

/-- A navigation to `path`: the assignment `window.location.href = path` of a same-origin path,
and the router call `navigate(path)`. -/
def Browser.navigate (b : Browser) (path : String) : Browser :=
  { b with pathname := path, navigations := b.navigations ++ [path] }

/-! ## `lib/axios.js`: the interceptors -/

/-- The request configuration an interceptor receives. -/
structure RequestConfig where
  url : String
  method : String
  data : Option Json
  headers : List (String × String)

/-- The response carried by a request error: its status and `data?.error`. -/
structure ErrorResponse where
  status : ℤ
  error : Field String
  deriving DecidableEq

/-- The error a request rejects with; `response` is absent when no response arrived. -/
structure AxiosError where
  message : String
  response : Option ErrorResponse
  deriving DecidableEq

namespace Api

/-- The request interceptor: reads `admin_token` and, when it is truthy, sets the header
`Authorization` of the configuration; returns the configuration. -/
def requestInterceptor (b : Browser) (config : RequestConfig) : RequestConfig :=
  match b.getItem "admin_token" with
  | some token =>
    if token ≠ "" then
      { config with headers := setProp config.headers "Authorization" ("Bearer " ++ token) }
    else config
  | none => config

/-- The rejection handler of the response interceptor: the browser it leaves and the error the
returned promise rejects with. -/
def responseRejected (b : Browser) (error : AxiosError) : Browser × AxiosError :=
  match error.response with
  | some response =>
    if response.status = 401 then
      let b1 := b.clear
      let b2 := if b1.pathname ≠ "/login" then b1.navigate "/login" else b1
      (b2, error)
    else (b, error)
  | none => (b, error)

end Api

/-! ## `Login` and `Layout` -/

/-- The body of a fulfilled `/auth/login` response: the auth user (an object), the session with
its access token, and the profile, absent (`none`) or any JSON value. -/
structure LoginData where
  user : List (String × Json)
  access_token : String
  profile : Option Json

/-- The state variables `loading` and `error` of `Login`. -/
structure LoginState where
  loading : Bool
  error : String
  deriving DecidableEq

/-- The own properties an object spread `{...v}` copies: those of an object, none of
`undefined` and `null`. Other values are not spread into objects by the client's data. -/
def spreadProps : Option Json → List (String × Json)
  | some (.obj props) => props
  | _ => []

/-- The object literal `{...a, ...b}` on property lists. -/
def mergeProps (a b : List (String × Json)) : List (String × Json) :=
  b.foldl (fun acc p => setProp acc p.1 p.2) a

namespace Login

/-- The test `profile?.role !== 'admin'`, negated: the profile has the role `admin`. -/
def isAdmin : Option Json → Bool
  | some (.obj props) =>
    match props.lookup "role" with
    | some (.str role) => role == "admin"
    | _ => false
  | _ => false

/-- The constant `userData`: `{ ...user, user_metadata: { ...user.user_metadata, ...profile } }`. -/
def userData (d : LoginData) : Json :=
  .obj (setProp d.user "user_metadata"
    (.obj (mergeProps (spreadProps (d.user.lookup "user_metadata")) (spreadProps d.profile))))

/-- The expression `err.response?.data?.error || 'Invalid credentials. Please try again.'`. -/
def errorMessage (err : AxiosError) : String :=
  match err.response with
  | some response =>
    match response.error with
    | .val s => if s ≠ "" then s else "Invalid credentials. Please try again."
    | _ => "Invalid credentials. Please try again."
  | none => "Invalid credentials. Please try again."

/-- The function `handleLogin` after `setLoading(true)` and `setError('')`. `result` is what
`api.post('/auth/login', formData)` settles to; a rejection has passed the response
interceptor. `stringify` is `JSON.stringify`. Returns the browser and the state left. -/
def handleLogin (stringify : Json → String) (b : Browser)
    (result : Except AxiosError LoginData) : Browser × LoginState :=
  match result with
  | .ok d =>
    if !isAdmin d.profile then
      (b, ⟨false, "Access Denied. Administrator privileges required."⟩)
    else
      let b1 := b.setItem "admin_token" d.access_token
      let b2 := b1.setItem "admin_user" (stringify (userData d))
      (b2.navigate "/", ⟨false, ""⟩)
  | .error err =>
    let b1 := (Api.responseRejected b err).1
    (b1, ⟨false, errorMessage err⟩)

end Login

namespace Layout

/-- The function `handleLogout`: `localStorage.clear()`, then `navigate('/login')`. -/
def handleLogout (b : Browser) : Browser :=
  b.clear.navigate "/login"

end Layout

/-! ## Session storage outside login and logout -/

/-- Truthiness of a JSON value. -/
def Json.truthy : Json → Bool
  | .null => false
  | .bool b => b
  | .num q => q != 0
  | .str s => s != ""
  | .arr _ => true
  | .obj _ => true

/-- The expression `error.response?.data?.error || dflt`. -/
def errorOr (err : AxiosError) (dflt : String) : String :=
  match err.response with
  | some response =>
    match response.error with
    | .val s => if s ≠ "" then s else dflt
    | _ => dflt
  | none => dflt

/-- What a route element renders to. -/
inductive Rendered where
  | children
  | navigate (path : String)
  deriving DecidableEq

namespace App

/-- The component `PrivateRoute`: a redirect to `/login` when `admin_token` is falsy, its
children otherwise. -/
def PrivateRoute (b : Browser) : Rendered :=
  match b.getItem "admin_token" with
  | some token => if token ≠ "" then .children else .navigate "/login"
  | none => .navigate "/login"

end App

/-- The property read `v.k` on a JSON value other than `null`: the property of an object,
`undefined` (`none`) otherwise. -/
def propOf (v : Json) (k : String) : Option Json :=
  match v with
  | .obj props => props.lookup k
  | _ => none

namespace Layout

/-- The function `syncProfile`. `result` is what `api.get('/users/profile')` settles to: a
rejection has passed the response interceptor; a fulfilment carries the value of
`res.data && res.data.profile` (`none` when it is `undefined`). `parse` is `JSON.parse`
(`none` when it throws), `stringify` is `JSON.stringify`. An exception inside the `try` is
caught and leaves the storage as it is: `JSON.parse` throwing, and the read
`parsed.user_metadata` on `null`. Returns the browser left. -/
def syncProfile (parse : String → Option Json) (stringify : Json → String) (b : Browser)
    (result : Except AxiosError (Option Json)) : Browser :=
  match result with
  | .error err => (Api.responseRejected b err).1
  | .ok none => b
  | .ok (some freshData) =>
    if !freshData.truthy then b
    else
      match b.getItem "admin_user" with
      | none => b
      | some stored =>
        if stored = "" then b
        else
          match parse stored with
          | none => b
          | some .null => b
          | some parsed =>
            b.setItem "admin_user" (stringify (.obj (setProp (spreadProps (some parsed))
              "user_metadata"
              (.obj (mergeProps (spreadProps (propOf parsed "user_metadata"))
                (spreadProps (some freshData)))))))

end Layout

/-- The state variable `profileForm` of `Settings`; `imageFile` is the selected file, if any. -/
structure ProfileForm where
  full_name : String
  job_title : String
  bio : String
  avatar_url : String
  imageFile : Option String
  deriving DecidableEq

namespace Settings

/-- The constant `payload` of `handleUpdateProfile` for a final avatar URL. -/
def profilePayload (form : ProfileForm) (finalAvatarUrl : String) : Json :=
  .obj [("full_name", .str form.full_name), ("job_title", .str form.job_title),
    ("bio", .str form.bio), ("profile_picture_url", .str finalAvatarUrl)]

/-- Steps B and C of `handleUpdateProfile`, once `finalAvatarUrl` is known and the effects
`pre` have happened: the profile request, then the update of `admin_user` in the storage.
`JSON.parse` throwing, and the assignment `u.user_metadata = ...` on `null` or a primitive
(a `TypeError` in module code), end in the `catch`; a property assigned to an array is not
serialized. -/
def saveProfile (parse : String → Option Json) (stringify : Json → String) (b : Browser)
    (form : ProfileForm) (finalAvatarUrl : String) (pre : List Effect)
    (putResult : Except AxiosError Unit) : Browser × ProfileForm × List Effect :=
  let put := Effect.request "PUT" "/users/profile" (some (profilePayload form finalAvatarUrl))
  let done : ProfileForm := { form with imageFile := none, avatar_url := finalAvatarUrl }
  let ok := Effect.alert "Profile updated successfully!"
  match putResult with
  | .error err =>
    ((Api.responseRejected b err).1, form,
      pre ++ [put, .alert ("Failed to update profile. " ++ errorOr err "")])
  | .ok _ =>
    match b.getItem "admin_user" with
    | none => (b, done, pre ++ [put, ok])
    | some userStr =>
      if userStr = "" then (b, done, pre ++ [put, ok])
      else
        match parse userStr with
        | some (.obj props) =>
          (b.setItem "admin_user" (stringify (.obj (setProp props "user_metadata"
              (.obj (setProp (setProp (spreadProps (props.lookup "user_metadata"))
                "full_name" (.str form.full_name)) "job_title" (.str form.job_title)))))),
            done, pre ++ [put, ok])
        | some (.arr items) =>
          (b.setItem "admin_user" (stringify (.arr items)), done, pre ++ [put, ok])
        | _ => (b, form, pre ++ [put, .alert "Failed to update profile. "])

/-- The function `handleUpdateProfile`. `uploadResult` and `putResult` are what the upload and
the profile request settle to (a rejection has passed the response interceptor; a fulfilled
upload carries `uploadRes.data.url`). Returns the browser and the form left, and the effects
in the order they happen. -/
def handleUpdateProfile (parse : String → Option Json) (stringify : Json → String)
    (b : Browser) (form : ProfileForm) (uploadResult : Except AxiosError String)
    (putResult : Except AxiosError Unit) : Browser × ProfileForm × List Effect :=
  match form.imageFile with
  | some file =>
    let upload := Effect.request "POST" "/storage/upload/avatars"
      (some (.obj [("file", .str file)]))
    match uploadResult with
    | .error err =>
      ((Api.responseRejected b err).1, form,
        [upload, .alert ("Failed to update profile. " ++ errorOr err "")])
    | .ok url => saveProfile parse stringify b form url [upload] putResult
  | none => saveProfile parse stringify b form form.avatar_url [] putResult

end Settings

/-! ## Page controllers: `Events` and `Feeds` -/

/-- The JSON number a JavaScript number serializes to: `NaN` and the infinities become `null`. -/
def JsNum.toJson : JsNum → Json
  | .fin q => .num q
  | _ => .null

/-- The state variable `formData` of `Events`; `image` is the selected file, if any. -/
structure EventForm where
  title : String
  about : String
  eventDate : String
  eventTime : String
  price : String
  location : String
  image : Option String
  imagePreview : Option String
  deriving DecidableEq

/-- The state variables of `Events` its handlers read and write. -/
structure EventsState where
  events : List Event
  selectedEvent : Option Event
  formData : EventForm
  deriving DecidableEq

namespace Events

/-- The function `fetchEvents`: the request, and the value of `events` afterwards. -/
def fetchEvents (events : List Event) (getResult : Except String (List Event)) :
    List Event × List Effect :=
  (match getResult with
    | .ok data => data
    | .error _ => events,
   [.request "GET" "/events" none])

/-- The function `handleDelete`. `confirmed` is the answer to `window.confirm`. -/
def handleDelete (st : EventsState) (id : ℕ) (confirmed : Bool)
    (deleteResult : Except String Unit) (getResult : Except String (List Event)) :
    EventsState × List Effect :=
  if !confirmed then (st, [])
  else
    let del := Effect.request "DELETE" ("/events/" ++ toString id) none
    match deleteResult with
    | .error _ => (st, [del, .alert "Failed to delete event"])
    | .ok _ =>
      ({ st with selectedEvent := none, events := (fetchEvents st.events getResult).1 },
        del :: (fetchEvents st.events getResult).2)

/-- The function `handleToggleStatus`. `isActive` is the truthiness of `event.is_active`, a
property outside the modelled fields of an event, so the selected event is the event given. -/
def handleToggleStatus (st : EventsState) (event : Event) (isActive : Bool)
    (putResult : Except String Unit) (getResult : Except String (List Event)) :
    EventsState × List Effect :=
  let put := Effect.request "PUT" ("/events/" ++ toString event.id ++ "/status")
    (some (.obj [("is_active", .bool (!isActive))]))
  match putResult with
  | .error _ => (st, [put, .alert "Failed to update status"])
  | .ok _ =>
    ({ st with selectedEvent := some event, events := (fetchEvents st.events getResult).1 },
      put :: (fetchEvents st.events getResult).2)

/-- The body of the request that creates an event, for a final image URL. -/
def eventPayload (parseFloat : String → JsNum) (form : EventForm) (finalImageUrl : String) :
    Json :=
  .obj [("title", .str form.title), ("description", .str form.about),
    ("image_url", .str finalImageUrl), ("event_date", .str form.eventDate),
    ("event_time", .str form.eventTime), ("price", (parseFloat form.price).toJson),
    ("location", .str form.location)]

/-- The second half of `handleSubmit`, once `finalImageUrl` is known and the effects `pre`
have happened: the request that creates the event, then the reset and the re-fetch. -/
def createEvent (parseFloat : String → JsNum) (st : EventsState) (finalImageUrl : String)
    (pre : List Effect) (postResult : Except String Unit)
    (getResult : Except String (List Event)) : EventsState × List Effect :=
  let post := Effect.request "POST" "/events"
    (some (eventPayload parseFloat st.formData finalImageUrl))
  match postResult with
  | .error _ => (st, pre ++ [post, .alert "Failed to create event"])
  | .ok _ =>
    ({ st with formData := ⟨"", "", "", "", "", "", none, none⟩,
               events := (fetchEvents st.events getResult).1 },
      pre ++ [post, .alert "Event Published!"] ++ (fetchEvents st.events getResult).2)

/-- The function `handleSubmit` of `Events`. `uploadResult` is what the upload settles to (a
fulfilment carries `uploadRes.data.url`); `parseFloat` is the global function. -/
def handleSubmit (parseFloat : String → JsNum) (st : EventsState)
    (uploadResult : Except String String) (postResult : Except String Unit)
    (getResult : Except String (List Event)) : EventsState × List Effect :=
  if st.formData.title = "" ∨ st.formData.eventDate = "" ∨ st.formData.price = "" then
    (st, [.alert "Please fill in required fields"])
  else
    match st.formData.image with
    | some file =>
      let upload := Effect.request "POST" "/storage/upload/services"
        (some (.obj [("file", .str file)]))
      match uploadResult with
      | .error _ => (st, [upload, .alert "Failed to create event"])
      | .ok url => createEvent parseFloat st url [upload] postResult getResult
    | none => createEvent parseFloat st "" [] postResult getResult

end Events

/-- A feed post as returned by `/feeds/posts`. -/
structure Post where
  id : String
  content : String
  image_url : Field String
  deriving DecidableEq

/-- The state variable `formData` of `Feeds`; `image` is the selected file, if any. -/
structure FeedForm where
  content : String
  image : Option String
  imagePreview : Option String
  deriving DecidableEq

/-- The state variables of `Feeds` its handlers read and write. -/
structure FeedsState where
  posts : List Post
  formData : FeedForm
  deriving DecidableEq

namespace Feeds

/-- The function `fetchPosts`: the request, and the value of `posts` afterwards. -/
def fetchPosts (posts : List Post) (getResult : Except String (List Post)) :
    List Post × List Effect :=
  (match getResult with
    | .ok data => data
    | .error _ => posts,
   [.request "GET" "/feeds/posts" none])

/-- The second half of `handleSubmit`, once `finalImageUrl` is known and the effects `pre`
have happened: the request that creates the post, then the reset and the re-fetch. -/
def createPost (st : FeedsState) (finalImageUrl : String) (pre : List Effect)
    (postResult : Except String Unit) (getResult : Except String (List Post)) :
    FeedsState × List Effect :=
  let post := Effect.request "POST" "/feeds/posts"
    (some (.obj [("content", .str st.formData.content), ("image_url", .str finalImageUrl)]))
  match postResult with
  | .error _ => (st, pre ++ [post, .alert "Failed to create post"])
  | .ok _ =>
    ({ st with formData := ⟨"", none, none⟩, posts := (fetchPosts st.posts getResult).1 },
      pre ++ [post, .alert "Post Created!"] ++ (fetchPosts st.posts getResult).2)

/-- The function `handleSubmit` of `Feeds`. -/
def handleSubmit (st : FeedsState) (uploadResult : Except String String)
    (postResult : Except String Unit) (getResult : Except String (List Post)) :
    FeedsState × List Effect :=
  if st.formData.content = "" then (st, [.alert "Please write some content."])
  else
    match st.formData.image with
    | some file =>
      let upload := Effect.request "POST" "/storage/upload/services"
        (some (.obj [("file", .str file)]))
      match uploadResult with
      | .error _ => (st, [upload, .alert "Failed to create post"])
      | .ok url => createPost st url [upload] postResult getResult
    | none => createPost st "" [] postResult getResult

/-- The function `handleDelete` of `Feeds`. -/
def handleDelete (st : FeedsState) (id : String) (confirmed : Bool)
    (deleteResult : Except String Unit) (getResult : Except String (List Post)) :
    FeedsState × List Effect :=
  if !confirmed then (st, [])
  else
    let del := Effect.request "DELETE" ("/feeds/posts/" ++ id) none
    match deleteResult with
    | .error _ => (st, [del, .alert "Failed to delete"])
    | .ok _ =>
      ({ st with posts := (fetchPosts st.posts getResult).1 },
        del :: (fetchPosts st.posts getResult).2)

end Feeds

/-! ## Page controllers: admins, service review, withdrawal -/

/-- An administrator as returned by `/admin/users/admins`. -/
structure Admin where
  id : String
  email : String
  deriving DecidableEq

/-- The state variable `newAdminForm` of `Settings`. -/
structure AdminForm where
  email : String
  password : String
  full_name : String
  deriving DecidableEq

/-- The state variables of `Settings` the admin handlers read and write. -/
structure AdminsState where
  admins : List Admin
  newAdminForm : AdminForm
  deriving DecidableEq

namespace Settings

/-- The function `handleAddAdmin`. A rejection carries the text
`e.response?.data?.error || e.message`. -/
def handleAddAdmin (st : AdminsState) (postResult : Except String Unit)
    (getResult : Except String (List Admin)) : AdminsState × List Effect :=
  if st.newAdminForm.email = "" ∨ st.newAdminForm.password = "" then
    (st, [.alert "Please fill fields"])
  else
    let post := Effect.request "POST" "/admin/users/invite-admin"
      (some (.obj [("email", .str st.newAdminForm.email),
        ("password", .str st.newAdminForm.password),
        ("full_name", .str st.newAdminForm.full_name)]))
    match postResult with
    | .error msg => (st, [post, .alert ("Failed: " ++ msg)])
    | .ok _ =>
      let st1 := { st with newAdminForm := ⟨"", "", ""⟩ }
      let get := Effect.request "GET" "/admin/users/admins" none
      match getResult with
      | .error msg =>
        (st1, [post, .alert "Admin added successfully", get, .alert ("Failed: " ++ msg)])
      | .ok data =>
        ({ st1 with admins := data }, [post, .alert "Admin added successfully", get])

/-- The function `handleRemoveAdmin`. `confirmed` is the answer to `window.confirm`. -/
def handleRemoveAdmin (st : AdminsState) (id : String) (confirmed : Bool)
    (deleteResult : Except String Unit) : AdminsState × List Effect :=
  if !confirmed then (st, [])
  else
    let del := Effect.request "DELETE" ("/admin/users/admins/" ++ id) none
    match deleteResult with
    | .ok _ => ({ st with admins := st.admins.filter (fun a => a.id != id) }, [del])
    | .error _ => (st, [del, .alert "Failed to remove admin"])

end Settings

/-- An entry of the services queue as returned by `/admin/services-queue`. -/
structure ServiceItem where
  id : String
  status : Field String
  deriving DecidableEq

/-- The state variables of `Dashboard` its review handler reads and writes. -/
structure DashboardState where
  services : List ServiceItem
  selectedService : Option ServiceItem
  rejectReason : String
  deriving DecidableEq

namespace Dashboard

/-- The function `fetchData` of `Dashboard`: the two requests of `Promise.all`, and the value
of `services` afterwards; `getResult` is the queue when both requests are fulfilled. -/
def fetchData (services : List ServiceItem) (getResult : Except String (List ServiceItem)) :
    List ServiceItem × List Effect :=
  (match getResult with
    | .ok data => data
    | .error _ => services,
   [.request "GET" "/admin/stats" none, .request "GET" "/admin/services-queue" none])

/-- The function `handleReviewAction` of `Dashboard`. -/
def handleReviewAction (st : DashboardState) (status : String)
    (putResult : Except String Unit) (getResult : Except String (List ServiceItem)) :
    DashboardState × List Effect :=
  match st.selectedService with
  | none => (st, [])
  | some selected =>
    let put := Effect.request "PUT" ("/admin/review-service/" ++ selected.id)
      (some (.obj [("status", .str status), ("reason", .str st.rejectReason)]))
    match putResult with
    | .error _ => (st, [put, .alert "Failed to update status"])
    | .ok _ =>
      (⟨(fetchData st.services getResult).1, none, ""⟩,
        put :: (fetchData st.services getResult).2)

end Dashboard

/-- The state variables of `Activities` its review handler reads and writes. -/
structure ActivitiesState where
  services : List ServiceItem
  pendingServices : List ServiceItem
  selectedReview : Option ServiceItem
  selectedService : Option ServiceItem
  rejectReason : String
  deriving DecidableEq

namespace Activities

/-- The function `fetchData` of `Activities` for the state variable `chartPeriod`: the two
requests of `Promise.all`, and the values of `services` and `pendingServices` afterwards. -/
def fetchData (chartPeriod : String) (st : ActivitiesState)
    (getResult : Except String (List ServiceItem)) : ActivitiesState × List Effect :=
  (match getResult with
    | .ok data =>
      { st with services := data,
                pendingServices := data.filter (fun s => s.status = .val "pending") }
    | .error _ => st,
   [.request "GET" ("/admin/activities/chart?period=" ++ chartPeriod) none,
    .request "GET" "/admin/services-queue" none])

/-- The function `handleReviewAction` of `Activities`; `itemToReview` is `none` when falsy. -/
def handleReviewAction (chartPeriod : String) (st : ActivitiesState)
    (itemToReview : Option ServiceItem) (status : String)
    (putResult : Except String Unit) (getResult : Except String (List ServiceItem)) :
    ActivitiesState × List Effect :=
  match itemToReview with
  | none => (st, [])
  | some item =>
    let put := Effect.request "PUT" ("/admin/review-service/" ++ item.id)
      (some (.obj [("status", .str status), ("reason", .str st.rejectReason)]))
    match putResult with
    | .error _ => (st, [put, .alert "Action failed"])
    | .ok _ =>
      let st1 : ActivitiesState :=
        { st with rejectReason := "", selectedReview := none, selectedService := none }
      ((fetchData chartPeriod st1 getResult).1,
        [put, .alert ("Service " ++ status)] ++ (fetchData chartPeriod st1 getResult).2)

end Activities

/-- The state variables of `Analytics` the withdrawal reads and writes; `available_balance` is
`stats.available_balance`, a number. -/
structure AnalyticsState where
  available_balance : ℚ
  showWithdrawModal : Bool
  withdrawAmount : String
  isWithdrawing : Bool
  deriving DecidableEq

/-- The comparison `x <= 0` of JavaScript numbers; false for `NaN`. -/
def JsNum.leZero : JsNum → Bool
  | .nan => false
  | .inf neg => neg
  | .fin q => decide (q ≤ 0)

/-- The comparison `x > y` of a JavaScript number with a finite number; false for `NaN`. -/
def JsNum.gtFin (x : JsNum) (y : ℚ) : Bool :=
  match x with
  | .nan => false
  | .inf neg => !neg
  | .fin q => decide (y < q)

/-- The global function `isNaN` on the result of `ToNumber`. -/
def JsNum.isNaN : JsNum → Bool
  | .nan => true
  | _ => false

namespace Analytics

/-- The function `handleWithdraw`. `toNumber` is the coercion `Number(s)` that `isNaN` applies
to a string, `parseFloat` the global function; `fetchResult` is the balance a fulfilled
`fetchAnalytics` brings. Returns the state after the `finally` block and the effects. -/
def handleWithdraw (toNumber parseFloat : String → JsNum) (st : AnalyticsState)
    (postResult : Except String Unit) (fetchResult : Except String ℚ) :
    AnalyticsState × List Effect :=
  if st.withdrawAmount = "" ∨ (toNumber st.withdrawAmount).isNaN = true ∨
      (parseFloat st.withdrawAmount).leZero = true then
    (st, [.alert "Enter a valid amount"])
  else if (parseFloat st.withdrawAmount).gtFin st.available_balance = true then
    (st, [.alert
      "Insufficient funds. You cannot withdraw more than your available profit."])
  else
    let post := Effect.request "POST" "/admin/withdraw"
      (some (.obj [("amount", (parseFloat st.withdrawAmount).toJson),
        ("destination", .str "Main Bank Account")]))
    match postResult with
    | .error msg =>
      ({ st with isWithdrawing := false }, [post, .alert ("Withdrawal failed: " ++ msg)])
    | .ok _ =>
      ({ st with showWithdrawModal := false, withdrawAmount := "", isWithdrawing := false,
                 available_balance :=
                   match fetchResult with
                   | .ok balance => balance
                   | .error _ => st.available_balance },
        [post, .alert ("Success! $" ++ st.withdrawAmount ++ " withdrawn."),
          .request "GET" "/admin/analytics" none])

end Analytics

/-! ## Theorems: the status badge -/

open BookingCard

/-- C1: a booking whose stored status is `completed` (resp. `cancelled`) gets the badge label
`Completed` (resp. `Cancelled`), whatever its times, the date parser and the current time. -/
theorem statusBadge_terminal (parseDate : String → Option ℤ) (now : ℤ) (b : Booking) :
    (b.status = .val "completed" → (statusBadge parseDate now b).label = "Completed") ∧
    (b.status = .val "cancelled" → (statusBadge parseDate now b).label = "Cancelled") := by
  constructor <;> intro h <;> simp [statusBadge, h]

/-- Witness of C1: a completed booking scheduled in the future and a cancelled one in the past. -/
theorem statusBadge_terminal_witness :
    (statusBadge (fun _ => some 99) 10
      ⟨1, .val "completed", .val "d", .null, .val 200, .undefined⟩).label = "Completed" ∧
    (statusBadge (fun _ => some 1) 10
      ⟨2, .val "cancelled", .val "d", .null, .val 200, .undefined⟩).label = "Cancelled" :=
  ⟨(statusBadge_terminal _ _ _).1 rfl, (statusBadge_terminal _ _ _).2 rfl⟩

/-- C2: for a booking with stored status `confirmed` the badge label is `Ongoing` when its time
is strictly before now, and `Upcoming` when the time equals now, is later, or is no valid date;
the time is that of `scheduled_time` when it is a non-empty string and of `created_at`
otherwise. One second (1000 ms) in the past gives `Ongoing`, one second ahead `Upcoming`. -/
theorem statusBadge_confirmed (parseDate : String → Option ℤ) (now : ℤ) (b : Booking)
    (h : b.status = .val "confirmed") :
    (∀ t, date parseDate b = some t → t < now →
      (statusBadge parseDate now b).label = "Ongoing") ∧
    (∀ t, date parseDate b = some t → now ≤ t →
      (statusBadge parseDate now b).label = "Upcoming") ∧
    (date parseDate b = none → (statusBadge parseDate now b).label = "Upcoming") ∧
    (date parseDate b = some (now - 1000) → (statusBadge parseDate now b).label = "Ongoing") ∧
    (date parseDate b = some (now + 1000) → (statusBadge parseDate now b).label = "Upcoming") ∧
    (∀ s, b.scheduled_time = .val s → s ≠ "" → date parseDate b = parseDate s) ∧
    (b.scheduled_time = .undefined ∨ b.scheduled_time = .null ∨ b.scheduled_time = .val "" →
      date parseDate b = newDate parseDate b.created_at) := by
  refine ⟨?_, ?_, ?_, ?_, ?_, ?_, ?_⟩
  · intro t ht hlt
    simp [statusBadge, h, ht, isPast, hlt]
  · intro t ht hle
    simp [statusBadge, h, ht, isPast, not_lt.mpr hle]
  · intro ht
    simp [statusBadge, h, ht, isPast]
  · intro ht
    simp [statusBadge, h, ht, isPast]
  · intro ht
    simp [statusBadge, h, ht, isPast]
  · intro s hs hne
    simp [date, jsOrStr, Field.truthyStr, hs, hne, newDate]
  · rintro (hs | hs | hs) <;> simp [date, jsOrStr, Field.truthyStr, hs]

/-- Witness of C2: a confirmed booking whose scheduled time parses to 5, seen at time 10. -/
theorem statusBadge_confirmed_witness :
    (⟨1, .val "confirmed", .val "d", .null, .val 200, .undefined⟩ : Booking).status
      = .val "confirmed" ∧
    (statusBadge (fun _ => some 5) 10
      ⟨1, .val "confirmed", .val "d", .null, .val 200, .undefined⟩).label = "Ongoing" :=
  ⟨rfl, (statusBadge_confirmed (fun _ => some 5) 10
    ⟨1, .val "confirmed", .val "d", .null, .val 200, .undefined⟩ rfl).1 5 rfl (by decide)⟩

/-- C3: for a booking with stored status `pending` the badge label is `Expired` when its time
(that of `scheduled_time`, else of `created_at`) is strictly before now, and `Upcoming` when
the time equals now, is later, or is no valid date. -/
theorem statusBadge_pending (parseDate : String → Option ℤ) (now : ℤ) (b : Booking)
    (h : b.status = .val "pending") :
    (∀ t, date parseDate b = some t → t < now →
      (statusBadge parseDate now b).label = "Expired") ∧
    (∀ t, date parseDate b = some t → now ≤ t →
      (statusBadge parseDate now b).label = "Upcoming") ∧
    (date parseDate b = none → (statusBadge parseDate now b).label = "Upcoming") := by
  refine ⟨?_, ?_, ?_⟩
  · intro t ht hlt
    simp [statusBadge, h, ht, isPast, hlt]
  · intro t ht hle
    simp [statusBadge, h, ht, isPast, not_lt.mpr hle]
  · intro ht
    simp [statusBadge, h, ht, isPast]

/-- Witness of C3: a pending booking without scheduled time, created at 3, seen at time 10. -/
theorem statusBadge_pending_witness :
    (⟨1, .val "pending", .null, .val "c", .val 200, .undefined⟩ : Booking).status
      = .val "pending" ∧
    (statusBadge (fun _ => some 3) 10
      ⟨1, .val "pending", .null, .val "c", .val 200, .undefined⟩).label = "Expired" :=
  ⟨rfl, (statusBadge_pending (fun _ => some 3) 10
    ⟨1, .val "pending", .null, .val "c", .val 200, .undefined⟩ rfl).1 3 rfl (by decide)⟩

/-- C4: the badge is defined for every booking, and a stored status other than `completed`,
`cancelled`, `confirmed` and `pending` (a missing one included) gives the label `Upcoming`
for every time, past or future. -/
theorem statusBadge_other (parseDate : String → Option ℤ) (now : ℤ) (b : Booking)
    (h₁ : b.status ≠ .val "completed") (h₂ : b.status ≠ .val "cancelled")
    (h₃ : b.status ≠ .val "confirmed") (h₄ : b.status ≠ .val "pending") :
    (statusBadge parseDate now b).label = "Upcoming" := by
  simp only [statusBadge, h₁, h₂, h₃, h₄, if_false]
  split <;> rfl

/-- Witness of C4: a booking with status `active` scheduled in the past. -/
theorem statusBadge_other_witness :
    (statusBadge (fun _ => some 3) 10
      ⟨1, .val "active", .val "d", .null, .val 200, .undefined⟩).label = "Upcoming" :=
  statusBadge_other (fun _ => some 3) 10
    ⟨1, .val "active", .val "d", .null, .val 200, .undefined⟩
    (by decide) (by decide) (by decide) (by decide)

/-! ## Theorems: the hour quantity -/

/-- The divisor of the hour quantity is the service price when that is a non-zero number. -/
theorem hourlyRate_of_price (b : Booking) (s : Service) (p : ℚ)
    (hs : b.services = .val s) (hp : s.price = .val p) (hp0 : p ≠ 0) : hourlyRate b = p := by
  simp [hourlyRate, servicePrice, hs, hp, hp0]

/-- The binary64 rounding of an exact result is a number or an infinity, never `NaN`. -/
theorem binary64_ne_nan (q : ℚ) : binary64 q ≠ .nan := by
  unfold binary64
  split
  · simp
  · split <;> simp

/-- The unit in the last place of a number whose binary exponent is `k`. -/
theorem quantum_eq (q : ℚ) (k : ℤ) (hk : -1022 ≤ k) (h1 : (2 : ℚ) ^ k ≤ |q|)
    (h2 : |q| < (2 : ℚ) ^ (k + 1)) : quantum q = k - 52 := by
  have hpos : 0 < |q| := lt_of_lt_of_le (by positivity) h1
  have hlo : k ≤ Int.log 2 |q| :=
    (Int.zpow_le_iff_le_log (by norm_num) hpos).1 (by exact_mod_cast h1)
  have hhi : Int.log 2 |q| < k + 1 :=
    (Int.lt_zpow_iff_log_lt (by norm_num) hpos).1 (by exact_mod_cast h2)
  unfold quantum
  omega

/-- A number strictly within one half of an integer rounds to that integer. -/
theorem roundHalfEven_of_lt (x : ℚ) (n : ℤ) (h1 : (n : ℚ) - 1 / 2 < x)
    (h2 : x < n + 1 / 2) : roundHalfEven x = n := by
  unfold roundHalfEven
  by_cases hx : (n : ℚ) ≤ x
  · have hf : ⌊x⌋ = n := by
      rw [Int.floor_eq_iff]; constructor <;> linarith
    rw [hf, if_pos (by linarith)]
  · have hf : ⌊x⌋ = n - 1 := by
      rw [Int.floor_eq_iff]; push_cast; constructor <;> linarith
    rw [hf]
    push_cast
    rw [if_neg (by linarith), if_pos (by linarith)]
    ring

/-- The binary64 value of `q`, from its binary exponent `k` and the significand `n` that
`q`, counted in units in the last place, is nearest to. -/
theorem binary64_eq (q : ℚ) (k n : ℤ) (hk : -1022 ≤ k) (h1 : (2 : ℚ) ^ k ≤ |q|)
    (h2 : |q| < (2 : ℚ) ^ (k + 1))
    (hr1 : (n : ℚ) - 1 / 2 < q / 2 ^ (k - 52)) (hr2 : q / 2 ^ (k - 52) < n + 1 / 2)
    (hfin : |(n : ℚ) * 2 ^ (k - 52)| < 2 ^ (1024 : ℤ)) :
    binary64 q = .fin (n * 2 ^ (k - 52)) := by
  have hq0 : q ≠ 0 := by
    intro h
    rw [h, abs_zero] at h1
    exact absurd h1 (not_le.mpr (by positivity))
  unfold binary64
  rw [if_neg hq0, quantum_eq q k hk h1 h2, roundHalfEven_of_lt _ n hr1 hr2,
    if_neg (not_le.mpr hfin)]

theorem binary64_four : binary64 4 = .fin 4 := by
  rw [binary64_eq 4 2 4503599627370496 (by norm_num) (by norm_num [abs_of_pos])
    (by norm_num [abs_of_pos]) (by norm_num) (by norm_num) (by norm_num [abs_of_pos])]
  norm_num

theorem binary64_fifth : binary64 (1 / 5) = .fin (3602879701896397 / 18014398509481984) := by
  rw [binary64_eq (1 / 5) (-3) 7205759403792794 (by norm_num) (by norm_num [abs_of_pos])
    (by norm_num [abs_of_pos]) (by norm_num) (by norm_num) (by norm_num [abs_of_pos])]
  norm_num

/-- The hour quantity when the total is a number and the divisor is not zero. -/
theorem calculatedHours_fin (b : Booking) (t : ℚ) (ht : b.total_price = .val t)
    (h0 : hourlyRate b ≠ 0) :
    calculatedHours b = mathMax (.fin 1) (mathRound (binary64 (t / hourlyRate b))) := by
  simp [calculatedHours, ht, Field.toNumber, JsNum.div, h0]

/-- Counterexample for C5: the quotient is rounded to a double before `Math.round` sees it.
With total `1.5 + 2⁻⁵²` at rate `1 + 2⁻⁵²`, both doubles, the exact quotient lies below 1.5
and `max(1, round(total / rate))` is 1, but the quotient rounds to the double 1.5 and the card
shows 2. With the doubles that the JSON numbers 2.4 and 1.6 denote the card shows 1, where
`max(1, round(2.4 / 1.6))` is 2. -/
theorem calculatedHours_not_exact_quotient :
    calculatedHours ⟨1, .val "confirmed", .val "d", .null,
      .val (6755399441055745 / 4503599627370496),
      .val ⟨.val "Cleaning", .val (4503599627370497 / 4503599627370496), .undefined⟩⟩
      = .fin 2 ∧
    max 1 ⌊(6755399441055745 / 4503599627370496 : ℚ) /
      (4503599627370497 / 4503599627370496) + 1 / 2⌋ = 1 ∧
    binary64 (12 / 5) = .fin (5404319552844595 / 2251799813685248) ∧
    binary64 (8 / 5) = .fin (7205759403792794 / 4503599627370496) ∧
    calculatedHours ⟨2, .val "confirmed", .val "d", .null,
      .val (5404319552844595 / 2251799813685248),
      .val ⟨.val "Cleaning", .val (7205759403792794 / 4503599627370496), .undefined⟩⟩
      = .fin 1 ∧
    max 1 ⌊(12 / 5 : ℚ) / (8 / 5) + 1 / 2⌋ = 2 := by
  have hq1 : binary64 ((6755399441055745 / 4503599627370496 : ℚ) /
      (4503599627370497 / 4503599627370496)) = .fin (3 / 2) := by
    rw [binary64_eq _ 0 6755399441055744 (by norm_num) (by norm_num [abs_of_pos])
      (by norm_num [abs_of_pos]) (by norm_num) (by norm_num) (by norm_num [abs_of_pos])]
    norm_num
  have hq2 : binary64 ((5404319552844595 / 2251799813685248 : ℚ) /
      (7205759403792794 / 4503599627370496)) = .fin (6755399441055743 / 4503599627370496) := by
    rw [binary64_eq _ 0 6755399441055743 (by norm_num) (by norm_num [abs_of_pos])
      (by norm_num [abs_of_pos]) (by norm_num) (by norm_num) (by norm_num [abs_of_pos])]
    norm_num
  have hf1 : ⌊(3 / 2 : ℚ) + 1 / 2⌋ = 2 := by
    rw [Int.floor_eq_iff]; constructor <;> norm_num
  have hf2 : ⌊(6755399441055743 / 4503599627370496 : ℚ) + 1 / 2⌋ = 1 := by
    rw [Int.floor_eq_iff]; constructor <;> norm_num
  have hf3 : ⌊(6755399441055745 / 4503599627370496 : ℚ) /
      (4503599627370497 / 4503599627370496) + 1 / 2⌋ = 1 := by
    rw [Int.floor_eq_iff]; constructor <;> norm_num
  have hf4 : ⌊(12 / 5 : ℚ) / (8 / 5) + 1 / 2⌋ = 2 := by
    rw [Int.floor_eq_iff]; constructor <;> norm_num
  refine ⟨?_, by rw [hf3]; rfl, ?_, ?_, ?_, by rw [hf4]; rfl⟩
  · rw [calculatedHours_fin _ _ rfl (by simp [hourlyRate, servicePrice])]
    have hr : hourlyRate ⟨1, .val "confirmed", .val "d", .null,
        .val (6755399441055745 / 4503599627370496),
        .val ⟨.val "Cleaning", .val (4503599627370497 / 4503599627370496), .undefined⟩⟩
        = 4503599627370497 / 4503599627370496 := by
      simp [hourlyRate, servicePrice]
    rw [hr, hq1]
    simp only [mathRound, mathMax, hf1]
    norm_num
  · rw [binary64_eq _ 1 5404319552844595 (by norm_num) (by norm_num [abs_of_pos])
      (by norm_num [abs_of_pos]) (by norm_num) (by norm_num) (by norm_num [abs_of_pos])]
    norm_num
  · rw [binary64_eq _ 0 7205759403792794 (by norm_num) (by norm_num [abs_of_pos])
      (by norm_num [abs_of_pos]) (by norm_num) (by norm_num) (by norm_num [abs_of_pos])]
    norm_num
  · rw [calculatedHours_fin _ _ rfl (by simp [hourlyRate, servicePrice])]
    have hr : hourlyRate ⟨2, .val "confirmed", .val "d", .null,
        .val (5404319552844595 / 2251799813685248),
        .val ⟨.val "Cleaning", .val (7205759403792794 / 4503599627370496), .undefined⟩⟩
        = 7205759403792794 / 4503599627370496 := by
      simp [hourlyRate, servicePrice]
    rw [hr, hq2]
    simp only [mathRound, mathMax, hf2]
    norm_num

/-- C5, amended: for a booking with a numeric `total_price` whose service has a non-zero
numeric price, the hour quantity is `max(1, round(d))`, where `d` is the binary64 double the
quotient `total_price / price` is rounded to and `round` is the nearest integer with halves
rounded up. When the quotient is itself a double this is `max(1, round(total_price / price))`;
a total of 200 at rate 50 gives 4 and a total of 10 at rate 50 gives 1. -/
theorem calculatedHours_double (b : Booking) (s : Service) (t p : ℚ)
    (ht : b.total_price = .val t) (hs : b.services = .val s) (hp : s.price = .val p)
    (hp0 : p ≠ 0) :
    calculatedHours b = mathMax (.fin 1) (mathRound (binary64 (t / p))) ∧
    (∀ d, binary64 (t / p) = .fin d →
      calculatedHours b = .fin ((max 1 ⌊d + 1 / 2⌋ : ℤ) : ℚ)) ∧
    (binary64 (t / p) = .fin (t / p) →
      calculatedHours b = .fin ((max 1 ⌊t / p + 1 / 2⌋ : ℤ) : ℚ)) ∧
    (t = 200 → p = 50 → calculatedHours b = .fin 4) ∧
    (t = 10 → p = 50 → calculatedHours b = .fin 1) := by
  have hr : hourlyRate b = p := hourlyRate_of_price b s p hs hp hp0
  have key : calculatedHours b = mathMax (.fin 1) (mathRound (binary64 (t / p))) := by
    have := calculatedHours_fin b t ht (by rw [hr]; exact hp0)
    rwa [hr] at this
  have keyd : ∀ d, binary64 (t / p) = .fin d →
      calculatedHours b = .fin ((max 1 ⌊d + 1 / 2⌋ : ℤ) : ℚ) := by
    intro d hd
    rw [key, hd]
    simp [mathRound, mathMax]
  refine ⟨key, keyd, fun h => keyd _ h, ?_, ?_⟩
  · intro h200 h50
    subst h200 h50
    have hq : binary64 ((200 : ℚ) / 50) = .fin 4 := by
      rw [show (200 : ℚ) / 50 = 4 by norm_num]
      exact binary64_four
    rw [keyd 4 hq]
    have : ⌊(4 : ℚ) + 1 / 2⌋ = 4 := by
      rw [Int.floor_eq_iff]; constructor <;> norm_num
    rw [this]; norm_num
  · intro h10 h50
    subst h10 h50
    have hq : binary64 ((10 : ℚ) / 50) = .fin (3602879701896397 / 18014398509481984) := by
      rw [show (10 : ℚ) / 50 = 1 / 5 by norm_num]
      exact binary64_fifth
    rw [keyd _ hq]
    have : ⌊(3602879701896397 / 18014398509481984 : ℚ) + 1 / 2⌋ = 0 := by
      rw [Int.floor_eq_iff]; constructor <;> norm_num
    rw [this]; norm_num

/-- Witness of C5: a total of 200 at rate 50 is displayed as 4 hours. -/
theorem calculatedHours_double_witness :
    calculatedHours ⟨1, .val "confirmed", .val "d", .null, .val 200,
      .val ⟨.val "Cleaning", .val 50, .undefined⟩⟩ = .fin 4 :=
  (calculatedHours_double _ ⟨.val "Cleaning", .val 50, .undefined⟩ 200 50 rfl rfl rfl
    (by norm_num)).2.2.2.1 rfl rfl

/-- C6: the divisor of the hour quantity is never zero. It is the fallback 50 when the booking
has no service and when the price of the service is absent, `null` or 0; dividing a number by
it is defined: the result is the double nearest to the exact quotient, never `NaN`. -/
theorem hourlyRate_ne_zero (b : Booking) :
    hourlyRate b ≠ 0 ∧
    ((∀ s, b.services ≠ .val s) → hourlyRate b = 50) ∧
    (∀ s, b.services = .val s →
      s.price = .undefined ∨ s.price = .null ∨ s.price = .val 0 → hourlyRate b = 50) ∧
    (∀ t : ℚ, (JsNum.fin t).div (.fin (hourlyRate b)) = binary64 (t / hourlyRate b)) ∧
    (∀ t : ℚ, (JsNum.fin t).div (.fin (hourlyRate b)) ≠ .nan) := by
  have h0 : hourlyRate b ≠ 0 := by
    unfold hourlyRate
    split
    · split
      · simp_all
      · norm_num
    · norm_num
  have hdiv : ∀ t : ℚ,
      (JsNum.fin t).div (.fin (hourlyRate b)) = binary64 (t / hourlyRate b) := by
    intro t
    simp [JsNum.div, h0]
  refine ⟨h0, ?_, ?_, hdiv, ?_⟩
  · intro hno
    unfold hourlyRate servicePrice
    cases hsv : b.services with
    | val s => exact absurd hsv (hno s)
    | undefined => simp
    | null => simp
  · rintro s hs (hp | hp | hp) <;> simp [hourlyRate, servicePrice, hs, hp]
  · intro t
    rw [hdiv]
    exact binary64_ne_nan _

/-- Witness of C6: a booking without service and one whose service has price 0. -/
theorem hourlyRate_ne_zero_witness :
    hourlyRate ⟨1, .val "confirmed", .val "d", .null, .val 125, .null⟩ = 50 ∧
    hourlyRate ⟨1, .val "confirmed", .val "d", .null, .val 125,
      .val ⟨.val "Cleaning", .val 0, .undefined⟩⟩ = 50 :=
  ⟨(hourlyRate_ne_zero _).2.1 (by intro s h; cases h),
   (hourlyRate_ne_zero _).2.2.1 ⟨.val "Cleaning", .val 0, .undefined⟩ rfl (Or.inr (Or.inr rfl))⟩

/-! ## Lemmas: the heap -/

theorem Heap.read_alloc {α : Type} (h : Heap α) (xs : List α) :
    (h.alloc xs).1.read (h.alloc xs).2 = xs := by
  simp [Heap.alloc, Heap.read, List.getD_eq_getElem?_getD]

theorem Heap.read_alloc_of_lt {α : Type} (h : Heap α) (xs : List α) (r : ℕ)
    (hr : r < h.length) : (h.alloc xs).1.read r = h.read r := by
  simp [Heap.alloc, Heap.read, List.getD_eq_getElem?_getD, List.getElem?_append_left hr]

theorem Heap.read_write_of_ne {α : Type} (h : Heap α) (xs : List α) (r a : ℕ)
    (hne : a ≠ r) : (h.write a xs).read r = h.read r := by
  simp [Heap.write, Heap.read, List.getD_eq_getElem?_getD, List.getElem?_set_ne hne]

theorem Heap.read_write {α : Type} (h : Heap α) (xs : List α) (a : ℕ)
    (ha : a < h.length) : (h.write a xs).read a = xs := by
  simp [Heap.write, Heap.read, List.getD_eq_getElem?_getD, ha]

theorem Heap.length_write {α : Type} (h : Heap α) (xs : List α) (a : ℕ) :
    (h.write a xs).length = h.length := by
  simp [Heap.write]

theorem Heap.length_alloc {α : Type} (h : Heap α) (xs : List α) :
    (h.alloc xs).1.length = h.length + 1 := by
  simp [Heap.alloc]

theorem Heap.ref_alloc {α : Type} (h : Heap α) (xs : List α) :
    (h.alloc xs).2 = h.length := rfl

theorem read_arrayFilter {α : Type} (h : Heap α) (a : ℕ) (p : α → Bool) :
    (arrayFilter h a p).1.read (arrayFilter h a p).2 = (h.read a).filter p :=
  Heap.read_alloc h _

/-! ## Theorems: the `Completed` tab -/

open Transactions

/-- C7: with `statusFilter = 'Completed'` and an empty search term, `filteredBookings` holds
exactly the bookings whose status is `completed` or `active`, in their original relative
order: it is the source list filtered by that condition. -/
theorem filteredBookings_completed (parseDate : String → Option ℤ)
    (toLowerCase : String → String) (now : ℤ) (h : Heap Booking) (bookings : ℕ) :
    filteredBookings parseDate toLowerCase now h bookings "Completed" "" =
      (h.read bookings).filter
        (fun b => decide (b.status = .val "completed" ∨ b.status = .val "active")) ∧
    List.Sublist (filteredBookings parseDate toLowerCase now h bookings "Completed" "")
      (h.read bookings) ∧
    ∀ b, b ∈ filteredBookings parseDate toLowerCase now h bookings "Completed" "" ↔
      b ∈ h.read bookings ∧ (b.status = .val "completed" ∨ b.status = .val "active") := by
  have key : filteredBookings parseDate toLowerCase now h bookings "Completed" "" =
      (h.read bookings).filter
        (fun b => decide (b.status = .val "completed" ∨ b.status = .val "active")) := by
    simp only [filteredBookings, filterBookings, filterByTab, filterBySearch, if_true, ne_eq,
      not_true_eq_false, if_false, read_arrayFilter]
    congr 1
    funext b
    simp [isCompletedTab]
  refine ⟨key, ?_, ?_⟩
  · rw [key]; exact List.filter_sublist _
  · intro b
    rw [key]
    simp [List.mem_filter]

/-! ## Lemmas: stability of the sort -/

/-- Inserting into a list does not disturb the elements selected by `p`, when any two elements
selected by `p` are related by `r` (they compare as equal). -/
theorem filter_orderedInsert {α : Type} (r : α → α → Prop) [DecidableRel r] (p : α → Bool)
    (hp : ∀ x y, p x = true → p y = true → r x y) (x : α) (l : List α) :
    (List.orderedInsert r x l).filter p = (x :: l).filter p := by
  induction l with
  | nil => simp
  | cons y ys ih =>
    by_cases hxy : r x y
    · simp [List.orderedInsert, hxy]
    · have hnot : ¬ (p x = true ∧ p y = true) := fun hh => hxy (hp x y hh.1 hh.2)
      simp only [List.orderedInsert, hxy, if_false, List.filter_cons, ih]
      by_cases hx : p x = true
      · have hy : ¬ p y = true := fun hy => hnot ⟨hx, hy⟩
        simp [hx, hy]
      · simp [hx]

/-- Sorting keeps the elements that compare as equal in their original order. -/
theorem filter_jsSort {α : Type} (cmp : α → α → ℚ) (p : α → Bool)
    (hp : ∀ x y, p x = true → p y = true → cmp x y ≤ 0) (l : List α) :
    (jsSort cmp l).filter p = l.filter p := by
  induction l with
  | nil => simp [jsSort]
  | cons x xs ih =>
    have h1 : jsSort cmp (x :: xs) =
        List.orderedInsert (fun a b => cmp a b ≤ 0) x (jsSort cmp xs) := rfl
    rw [h1, filter_orderedInsert (fun a b => cmp a b ≤ 0) p hp]
    simp only [List.filter_cons, ih]

/-- The sorted array is a permutation of the array before the sort. -/
theorem jsSort_perm {α : Type} (cmp : α → α → ℚ) (l : List α) : (jsSort cmp l).Perm l :=
  List.perm_insertionSort _ l

/-- Sorting by price descending leaves prices in descending order. -/
theorem jsSort_price_desc (l : List Event) :
    (jsSort (fun a b : Event => b.price - a.price) l).Pairwise (fun a b => b.price ≤ a.price) := by
  haveI : IsTotal Event (fun a b : Event => b.price - a.price ≤ 0) :=
    ⟨fun a b => by
      rcases le_total a.price b.price with h | h
      · exact Or.inr (by linarith)
      · exact Or.inl (by linarith)⟩
  haveI : IsTrans Event (fun a b : Event => b.price - a.price ≤ 0) :=
    ⟨fun a b c hab hbc => by
      show c.price - a.price ≤ 0
      have h1 : b.price - a.price ≤ 0 := hab
      have h2 : c.price - b.price ≤ 0 := hbc
      linarith⟩
  have hs : (jsSort (fun a b : Event => b.price - a.price) l).Pairwise
      (fun a b : Event => b.price - a.price ≤ 0) :=
    List.sorted_insertionSort (fun a b : Event => b.price - a.price ≤ 0) l
  refine List.Pairwise.imp ?_ hs
  intro a b hab
  linarith

/-- Sorting by date descending leaves dates in descending order. -/
theorem jsSort_date_desc (l : List Event) :
    (jsSort (fun a b : Event => ((b.event_date - a.event_date : ℤ) : ℚ)) l).Pairwise
      (fun a b => b.event_date ≤ a.event_date) := by
  have e : ∀ a b : Event,
      (((b.event_date - a.event_date : ℤ) : ℚ) ≤ 0) ↔ b.event_date ≤ a.event_date := by
    intro a b
    rw [show (0 : ℚ) = ((0 : ℤ) : ℚ) from rfl, Int.cast_le]
    omega
  haveI : IsTotal Event (fun a b : Event => ((b.event_date - a.event_date : ℤ) : ℚ) ≤ 0) :=
    ⟨fun a b => by
      rcases le_total a.event_date b.event_date with h | h
      · exact Or.inr ((e b a).2 h)
      · exact Or.inl ((e a b).2 h)⟩
  haveI : IsTrans Event (fun a b : Event => ((b.event_date - a.event_date : ℤ) : ℚ) ≤ 0) :=
    ⟨fun a b c hab hbc => (e a c).2 (le_trans ((e b c).1 hbc) ((e a b).1 hab))⟩
  have hs : (jsSort (fun a b : Event => ((b.event_date - a.event_date : ℤ) : ℚ)) l).Pairwise
      (fun a b : Event => ((b.event_date - a.event_date : ℤ) : ℚ) ≤ 0) :=
    List.sorted_insertionSort
      (fun a b : Event => ((b.event_date - a.event_date : ℤ) : ℚ) ≤ 0) l
  refine List.Pairwise.imp ?_ hs
  intro a b hab
  exact (e a b).1 hab

/-- Price sort followed by date sort: date descending, and price descending among equal dates. -/
theorem jsSort_price_then_date (l : List Event) :
    (jsSort (fun a b : Event => ((b.event_date - a.event_date : ℤ) : ℚ))
      (jsSort (fun a b : Event => b.price - a.price) l)).Pairwise
      (fun a b => b.event_date < a.event_date ∨
        (a.event_date = b.event_date ∧ b.price ≤ a.price)) := by
  rw [List.pairwise_iff_forall_sublist]
  intro a b hab
  have hd := List.pairwise_iff_forall_sublist.1 (jsSort_date_desc _) hab
  rcases lt_or_eq_of_le hd with hlt | heq
  · exact Or.inl hlt
  · refine Or.inr ⟨heq.symm, ?_⟩
    have hf := List.Sublist.filter (fun e : Event => decide (e.event_date = a.event_date)) hab
    rw [filter_jsSort] at hf
    · have hf2 : [a, b].filter (fun e : Event => decide (e.event_date = a.event_date)) = [a, b] := by
        simp [heq]
      rw [hf2] at hf
      have hsub := hf.trans (List.filter_sublist _)
      exact List.pairwise_iff_forall_sublist.1 (jsSort_price_desc l) hsub
    · intro x y hx hy
      simp only [decide_eq_true_eq] at hx hy
      simp [hx, hy]

/-! ## Lemmas: the steps of `getProcessedEvents` -/

open Events

theorem read_arraySort {α : Type} (h : Heap α) (a : ℕ) (cmp : α → α → ℚ) (ha : a < h.length) :
    (arraySort h a cmp).read a = jsSort cmp (h.read a) :=
  Heap.read_write h _ a ha

theorem length_arraySort {α : Type} (h : Heap α) (a : ℕ) (cmp : α → α → ℚ) :
    (arraySort h a cmp).length = h.length :=
  Heap.length_write h _ a

theorem read_arraySort_of_ne {α : Type} (h : Heap α) (a r : ℕ) (cmp : α → α → ℚ)
    (hne : a ≠ r) : (arraySort h a cmp).read r = h.read r :=
  Heap.read_write_of_ne h _ r a hne

/-- The status step returns a valid reference, not below its input reference, to the kept
events, and leaves every array that existed before as it was. -/
theorem filterByStatus_spec (h : Heap Event) (result : ℕ) (fs : String)
    (hres : result < h.length) :
    result ≤ (filterByStatus h result fs).2 ∧
    (filterByStatus h result fs).2 < (filterByStatus h result fs).1.length ∧
    (filterByStatus h result fs).1.read (filterByStatus h result fs).2 =
      (h.read result).filter (keptByStatus fs) ∧
    ∀ r, r < result → (filterByStatus h result fs).1.read r = h.read r := by
  unfold filterByStatus keptByStatus
  have hne : ("Inactive" : String) ≠ "Active" := by decide
  by_cases h1 : fs = "Active"
  · subst h1
    simp only [if_true]
    refine ⟨?_, ?_, read_arrayFilter h result _, ?_⟩
    · simp only [arrayFilter, Heap.ref_alloc]; omega
    · simp only [arrayFilter, Heap.ref_alloc, Heap.length_alloc]; omega
    · intro r hr
      exact Heap.read_alloc_of_lt h _ r (by omega)
  · by_cases h2 : fs = "Inactive"
    · subst h2
      simp only [hne, if_true, if_false]
      refine ⟨?_, ?_, read_arrayFilter h result _, ?_⟩
      · simp only [arrayFilter, Heap.ref_alloc]; omega
      · simp only [arrayFilter, Heap.ref_alloc, Heap.length_alloc]; omega
      · intro r hr
        exact Heap.read_alloc_of_lt h _ r (by omega)
    · simp [h1, h2, hres]

theorem length_sortByPrice (h : Heap Event) (result : ℕ) (sp : String) :
    (sortByPrice h result sp).length = h.length := by
  unfold sortByPrice
  split
  · exact length_arraySort _ _ _
  · split
    · exact length_arraySort _ _ _
    · rfl

theorem read_sortByPrice_of_ne (h : Heap Event) (result r : ℕ) (sp : String)
    (hne : result ≠ r) : (sortByPrice h result sp).read r = h.read r := by
  unfold sortByPrice
  split
  · exact read_arraySort_of_ne _ _ _ _ hne
  · split
    · exact read_arraySort_of_ne _ _ _ _ hne
    · rfl

theorem read_sortByDate_of_ne (h : Heap Event) (result r : ℕ) (sd : String)
    (hne : result ≠ r) : (sortByDate h result sd).read r = h.read r := by
  unfold sortByDate
  split
  · exact read_arraySort_of_ne _ _ _ _ hne
  · split
    · exact read_arraySort_of_ne _ _ _ _ hne
    · rfl

/-- With `sortPrice = 'High'` and `sortDate = 'Newest'` the returned array holds the kept events
sorted by price descending and then by date descending. -/
theorem processedEvents_high_newest (h : Heap Event) (events : ℕ) (fs : String) :
    processedEvents h events fs "High" "Newest" =
      jsSort (fun a b : Event => ((b.event_date - a.event_date : ℤ) : ℚ))
        (jsSort (fun a b : Event => b.price - a.price)
          ((h.read events).filter (keptByStatus fs))) := by
  have hs0 : (spread h events).2 < (spread h events).1.length := by
    simp only [spread, Heap.ref_alloc, Heap.length_alloc]; omega
  obtain ⟨-, hlt, hread, -⟩ := filterByStatus_spec (spread h events).1 (spread h events).2 fs hs0
  have hsrc : (spread h events).1.read (spread h events).2 = h.read events :=
    Heap.read_alloc h _
  rw [hsrc] at hread
  simp only [processedEvents, getProcessedEvents, sortByDate, sortByPrice, if_true]
  rw [read_arraySort _ _ _ (by rw [length_arraySort]; exact hlt),
    read_arraySort _ _ _ hlt, hread]

/-! ## Theorems: the combined sort -/

/-- C8: with `sortPrice = 'High'` and `sortDate = 'Newest'`, `getProcessedEvents` returns the
events the status filter keeps, ordered by `event_date` descending and, among events of equal
`event_date`, by price descending: the price sort runs first, the date sort second, and the
date sort keeps the price order of the events it compares as equal. -/
theorem processedEvents_sorted (h : Heap Event) (events : ℕ) (fs : String) :
    (processedEvents h events fs "High" "Newest").Pairwise
      (fun a b => b.event_date < a.event_date ∨
        (a.event_date = b.event_date ∧ b.price ≤ a.price)) ∧
    (processedEvents h events fs "High" "Newest").Perm
      ((h.read events).filter (keptByStatus fs)) ∧
    processedEvents h events fs "High" "Newest" =
      jsSort (fun a b : Event => ((b.event_date - a.event_date : ℤ) : ℚ))
        (jsSort (fun a b : Event => b.price - a.price)
          ((h.read events).filter (keptByStatus fs))) := by
  refine ⟨?_, ?_, processedEvents_high_newest h events fs⟩
  · rw [processedEvents_high_newest]
    exact jsSort_price_then_date _
  · rw [processedEvents_high_newest]
    exact (jsSort_perm _ _).trans (jsSort_perm _ _)

/-! ## Lemmas: the steps of the filter effect -/

/-- An allocating filter keeps every array that existed before and only grows the heap. -/
theorem arrayFilter_frame {α : Type} (h : Heap α) (a : ℕ) (p : α → Bool) :
    h.length ≤ (arrayFilter h a p).1.length ∧
    ∀ r, r < h.length → (arrayFilter h a p).1.read r = h.read r := by
  refine ⟨?_, fun r hr => Heap.read_alloc_of_lt h _ r hr⟩
  simp only [arrayFilter, Heap.length_alloc]; omega

theorem filterByTab_read (parseDate : String → Option ℤ) (now : ℤ) (h : Heap Booking)
    (result : ℕ) (sf : String) :
    (filterByTab parseDate now h result sf).1.read (filterByTab parseDate now h result sf).2 =
      (h.read result).filter (passesTab parseDate now sf) := by
  unfold filterByTab passesTab
  have hne : ("Upcoming" : String) ≠ "Completed" := by decide
  by_cases h1 : sf = "Completed"
  · subst h1
    simp only [if_true]
    exact read_arrayFilter h result _
  · by_cases h2 : sf = "Upcoming"
    · subst h2
      simp only [hne, if_true, if_false]
      exact read_arrayFilter h result _
    · simp [h1, h2]

theorem filterByTab_frame (parseDate : String → Option ℤ) (now : ℤ) (h : Heap Booking)
    (result : ℕ) (sf : String) :
    h.length ≤ (filterByTab parseDate now h result sf).1.length ∧
    ∀ r, r < h.length → (filterByTab parseDate now h result sf).1.read r = h.read r := by
  unfold filterByTab
  split
  · exact arrayFilter_frame h result _
  · split
    · exact arrayFilter_frame h result _
    · exact ⟨le_refl _, fun r _ => rfl⟩

theorem filterBySearch_frame (toLowerCase : String → String) (h : Heap Booking)
    (result : ℕ) (term : String) :
    h.length ≤ (filterBySearch toLowerCase h result term).1.length ∧
    ∀ r, r < h.length → (filterBySearch toLowerCase h result term).1.read r = h.read r := by
  unfold filterBySearch
  split
  · exact arrayFilter_frame h result _
  · exact ⟨le_refl _, fun r _ => rfl⟩

/-- The contents of `filteredBookings`: the tab filter, then the search filter for a
non-empty term. -/
theorem filteredBookings_eq (parseDate : String → Option ℤ) (toLowerCase : String → String)
    (now : ℤ) (h : Heap Booking) (bookings : ℕ) (sf term : String) :
    filteredBookings parseDate toLowerCase now h bookings sf term =
      if term ≠ "" then
        ((h.read bookings).filter (passesTab parseDate now sf)).filter
          (searchMatches toLowerCase (toLowerCase term))
      else (h.read bookings).filter (passesTab parseDate now sf) := by
  unfold filteredBookings filterBookings filterBySearch
  by_cases ht : term = ""
  · simp only [ht, ne_eq, not_true_eq_false, if_false]
    exact filterByTab_read parseDate now h bookings sf
  · simp only [ne_eq, ht, not_false_eq_true, if_true]
    rw [read_arrayFilter, filterByTab_read]

/-- The events array and everything allocated before the call survive `getProcessedEvents`. -/
theorem getProcessedEvents_frame (h : Heap Event) (events : ℕ) (fs sp sd : String) (r : ℕ)
    (hr : r < h.length) :
    (getProcessedEvents h events fs sp sd).1.read r = h.read r := by
  have hs0 : (spread h events).2 < (spread h events).1.length := by
    simp only [spread, Heap.ref_alloc, Heap.length_alloc]; omega
  obtain ⟨hle, -, -, hframe⟩ :=
    filterByStatus_spec (spread h events).1 (spread h events).2 fs hs0
  have href : (spread h events).2 = h.length := rfl
  have hle2 : h.length ≤ (filterByStatus (spread h events).1 (spread h events).2 fs).2 := hle
  have hne : (filterByStatus (spread h events).1 (spread h events).2 fs).2 ≠ r := by
    omega
  simp only [getProcessedEvents]
  rw [read_sortByDate_of_ne _ _ _ _ hne, read_sortByPrice_of_ne _ _ _ _ hne,
    hframe r (by rw [href]; exact hr)]
  exact Heap.read_alloc_of_lt h _ r hr

/-- The bookings array and everything allocated before the effect survive the filter effect. -/
theorem filterBookings_frame (parseDate : String → Option ℤ) (toLowerCase : String → String)
    (now : ℤ) (h : Heap Booking) (bookings : ℕ) (sf term : String) (r : ℕ)
    (hr : r < h.length) :
    (filterBookings parseDate toLowerCase now h bookings sf term).1.read r = h.read r := by
  obtain ⟨hlen, hframe⟩ := filterByTab_frame parseDate now h bookings sf
  obtain ⟨-, hframe2⟩ := filterBySearch_frame toLowerCase
    (filterByTab parseDate now h bookings sf).1 (filterByTab parseDate now h bookings sf).2 term
  simp only [filterBookings]
  rw [hframe2 r (by omega), hframe r hr]

/-! ## Theorems: the source collection is not mutated -/

/-- C9: for every filter, search term and sort setting, the array `events` holds the same
elements in the same order after `getProcessedEvents` as before, and the array `bookings` the
same after the filter effect as before; so does every other array that existed before. The
references are those of arrays that exist in the heap. -/
theorem source_unchanged (he : Heap Event) (events : ℕ) (hev : events < he.length)
    (fs sp sd : String) (parseDate : String → Option ℤ) (toLowerCase : String → String)
    (now : ℤ) (hb : Heap Booking) (bookings : ℕ) (hbk : bookings < hb.length)
    (sf term : String) :
    (getProcessedEvents he events fs sp sd).1.read events = he.read events ∧
    (filterBookings parseDate toLowerCase now hb bookings sf term).1.read bookings
      = hb.read bookings ∧
    (∀ r, r < he.length → (getProcessedEvents he events fs sp sd).1.read r = he.read r) ∧
    (∀ r, r < hb.length →
      (filterBookings parseDate toLowerCase now hb bookings sf term).1.read r = hb.read r) :=
  ⟨getProcessedEvents_frame he events fs sp sd events hev,
   filterBookings_frame parseDate toLowerCase now hb bookings sf term bookings hbk,
   fun r hr => getProcessedEvents_frame he events fs sp sd r hr,
   fun r hr => filterBookings_frame parseDate toLowerCase now hb bookings sf term r hr⟩

/-- Witness of C9: two events sorted by price and date, two bookings filtered by tab and term;
both source arrays read the same afterwards. -/
theorem source_unchanged_witness :
    (getProcessedEvents [[⟨1, .val "Active", 10, 5⟩, ⟨2, .val "Active", 30, 7⟩]] 0
      "Active" "High" "Newest").1.read 0
      = [⟨1, .val "Active", 10, 5⟩, ⟨2, .val "Active", 30, 7⟩] ∧
    (filterBookings (fun _ => some 5) String.toLower 10
      [[⟨1, .val "completed", .null, .null, .val 200, .undefined⟩,
        ⟨2, .val "pending", .null, .null, .val 100, .undefined⟩]] 0
      "Completed" "a").1.read 0
      = [⟨1, .val "completed", .null, .null, .val 200, .undefined⟩,
        ⟨2, .val "pending", .null, .null, .val 100, .undefined⟩] :=
  ⟨(source_unchanged [[⟨1, .val "Active", 10, 5⟩, ⟨2, .val "Active", 30, 7⟩]] 0 (by decide)
      "Active" "High" "Newest" (fun _ => some 5) String.toLower 10
      [[⟨1, .val "completed", .null, .null, .val 200, .undefined⟩,
        ⟨2, .val "pending", .null, .null, .val 100, .undefined⟩]] 0 (by decide)
      "Completed" "a").1,
   (source_unchanged [[⟨1, .val "Active", 10, 5⟩, ⟨2, .val "Active", 30, 7⟩]] 0 (by decide)
      "Active" "High" "Newest" (fun _ => some 5) String.toLower 10
      [[⟨1, .val "completed", .null, .null, .val 200, .undefined⟩,
        ⟨2, .val "pending", .null, .null, .val 100, .undefined⟩]] 0 (by decide)
      "Completed" "a").2.1⟩

/-! ## Theorems: the search -/

/-- The search predicate spelled out on the fields of a booking. -/
theorem searchMatches_iff (toLowerCase : String → String) (lowerTerm : String) (b : Booking) :
    searchMatches toLowerCase lowerTerm b = true ↔
      (∃ s p n, b.services = .val s ∧ s.profiles = .val p ∧ p.full_name = .val n ∧
        lowerTerm.data <:+: (toLowerCase n).data) ∨
      (∃ s t, b.services = .val s ∧ s.title = .val t ∧
        lowerTerm.data <:+: (toLowerCase t).data) := by
  unfold searchMatches lowerIncludes fullName title jsIncludes
  cases hs : b.services with
  | undefined => simp
  | null => simp
  | val s =>
    cases hp : s.profiles with
    | undefined => cases ht : s.title <;> simp [hp, ht]
    | null => cases ht : s.title <;> simp [hp, ht]
    | val p => cases hn : p.full_name <;> cases ht : s.title <;> simp [hp, hn, ht]

/-- C10: an empty search term keeps every booking that passed the tab filter; a non-empty term
keeps such a booking if and only if the lower-cased provider full name or the lower-cased
service title contains the lower-cased term as a substring. Hence two non-empty terms with the
same lower-cased form give the same result, and a booking with neither a provider full name
nor a service title is never kept by a non-empty term. -/
theorem filteredBookings_search (parseDate : String → Option ℤ) (toLowerCase : String → String)
    (now : ℤ) (h : Heap Booking) (bookings : ℕ) (sf : String) :
    filteredBookings parseDate toLowerCase now h bookings sf "" =
      (h.read bookings).filter (passesTab parseDate now sf) ∧
    (∀ term, term ≠ "" → ∀ b,
      (b ∈ filteredBookings parseDate toLowerCase now h bookings sf term ↔
        b ∈ filteredBookings parseDate toLowerCase now h bookings sf "" ∧
        ((∃ s p n, b.services = .val s ∧ s.profiles = .val p ∧ p.full_name = .val n ∧
            (toLowerCase term).data <:+: (toLowerCase n).data) ∨
         (∃ s t, b.services = .val s ∧ s.title = .val t ∧
            (toLowerCase term).data <:+: (toLowerCase t).data)))) ∧
    (∀ term, term ≠ "" →
      List.Sublist (filteredBookings parseDate toLowerCase now h bookings sf term)
        (filteredBookings parseDate toLowerCase now h bookings sf "")) ∧
    (∀ t₁ t₂, t₁ ≠ "" → t₂ ≠ "" → toLowerCase t₁ = toLowerCase t₂ →
      filteredBookings parseDate toLowerCase now h bookings sf t₁ =
        filteredBookings parseDate toLowerCase now h bookings sf t₂) ∧
    (∀ term, term ≠ "" → ∀ b, (∀ n, fullName b ≠ .val n) → (∀ t, title b ≠ .val t) →
      b ∉ filteredBookings parseDate toLowerCase now h bookings sf term) := by
  have h0 : filteredBookings parseDate toLowerCase now h bookings sf "" =
      (h.read bookings).filter (passesTab parseDate now sf) := by
    rw [filteredBookings_eq]; simp
  have h1 : ∀ term, term ≠ "" →
      filteredBookings parseDate toLowerCase now h bookings sf term =
        (filteredBookings parseDate toLowerCase now h bookings sf "").filter
          (searchMatches toLowerCase (toLowerCase term)) := by
    intro term ht
    rw [h0, filteredBookings_eq, if_pos ht]
  refine ⟨h0, ?_, ?_, ?_, ?_⟩
  · intro term ht b
    rw [h1 term ht, List.mem_filter, searchMatches_iff]
  · intro term ht
    rw [h1 term ht]
    exact List.filter_sublist _
  · intro t₁ t₂ h₁ h₂ heq
    rw [h1 t₁ h₁, h1 t₂ h₂, heq]
  · intro term ht b hn htl hmem
    rw [h1 term ht, List.mem_filter] at hmem
    have hm := hmem.2
    unfold searchMatches lowerIncludes at hm
    cases hf : fullName b with
    | val n => exact hn n hf
    | undefined =>
      cases hti : title b with
      | val t => exact htl t hti
      | undefined => simp [hf, hti] at hm
      | null => simp [hf, hti] at hm
    | null =>
      cases hti : title b with
      | val t => exact htl t hti
      | undefined => simp [hf, hti] at hm
      | null => simp [hf, hti] at hm

/-- Witness of C10: the terms `CLEAN` and `clean` select the same bookings, here the one whose
service title is `Deep Cleaning`. -/
theorem filteredBookings_search_witness :
    filteredBookings (fun _ => some 5) (fun s => ⟨s.data.map Char.toLower⟩) 10
      [[⟨1, .val "completed", .null, .null, .val 200,
          .val ⟨.val "Deep Cleaning", .val 50, .undefined⟩⟩,
        ⟨2, .val "pending", .null, .null, .val 100, .undefined⟩]] 0 "All" "CLEAN" =
    filteredBookings (fun _ => some 5) (fun s => ⟨s.data.map Char.toLower⟩) 10
      [[⟨1, .val "completed", .null, .null, .val 200,
          .val ⟨.val "Deep Cleaning", .val 50, .undefined⟩⟩,
        ⟨2, .val "pending", .null, .null, .val 100, .undefined⟩]] 0 "All" "clean" :=
  (filteredBookings_search (fun _ => some 5) (fun s => ⟨s.data.map Char.toLower⟩) 10
      [[⟨1, .val "completed", .null, .null, .val 200,
          .val ⟨.val "Deep Cleaning", .val 50, .undefined⟩⟩,
        ⟨2, .val "pending", .null, .null, .val 100, .undefined⟩]] 0 "All").2.2.2.1
    "CLEAN" "clean" (by decide) (by decide) (by decide)

/-! ## Theorems: the category navigator -/

open Settings

/-- C11: the displayed categories are, in the original order of the list: when no parent is
open, exactly the categories without parent reference (absent, `null`, or the empty string,
which is no identifier); when a parent is open, exactly the categories whose parent reference
equals the id of the open parent. -/
theorem displayedCategories_spec (categories : List Category) :
    displayedCategories categories none =
      categories.filter (fun c => decide (c.parent_category_id = .undefined ∨
        c.parent_category_id = .null ∨ c.parent_category_id = .val "")) ∧
    (∀ c, c ∈ displayedCategories categories none ↔
      c ∈ categories ∧ (c.parent_category_id = .undefined ∨ c.parent_category_id = .null ∨
        c.parent_category_id = .val "")) ∧
    (∀ p : Category, displayedCategories categories (some p) =
      categories.filter (fun c => decide (c.parent_category_id = .val p.id))) ∧
    (∀ (p : Category) c, c ∈ displayedCategories categories (some p) ↔
      c ∈ categories ∧ c.parent_category_id = .val p.id) ∧
    (∀ sel, List.Sublist (displayedCategories categories sel) categories) := by
  have hroot : displayedCategories categories none =
      categories.filter (fun c => decide (c.parent_category_id = .undefined ∨
        c.parent_category_id = .null ∨ c.parent_category_id = .val "")) := by
    show categories.filter (fun c => !c.parent_category_id.truthyStr) = _
    congr 1
    funext c
    cases hc : c.parent_category_id with
    | undefined => simp [Field.truthyStr]
    | null => simp [Field.truthyStr]
    | val s => by_cases hs : s = "" <;> simp [Field.truthyStr, hs]
  refine ⟨hroot, ?_, fun p => rfl, ?_, ?_⟩
  · intro c
    rw [hroot]
    simp [List.mem_filter]
  · intro p c
    simp [displayedCategories, List.mem_filter]
  · intro sel
    cases sel with
    | none => exact List.filter_sublist _
    | some p => exact List.filter_sublist _

/-- C12: a click on a category card changes the navigator only at root. With no parent open the
clicked category becomes the open parent; with a parent open the open parent stays. Hence
every state the navigator reaches is the root or an open root category: it shows the first or
the second level, never a deeper one. -/
theorem cardClick_spec (categories : List Category) :
    (∀ cat, cardClick none cat = some cat) ∧
    (∀ p cat, cardClick (some p) cat = some p) ∧
    (∀ sel, Reachable categories sel →
      sel = none ∨ ∃ p, sel = some p ∧ p ∈ displayedCategories categories none) := by
  refine ⟨fun _ => rfl, fun _ _ => rfl, ?_⟩
  intro sel hsel
  induction hsel with
  | init => exact Or.inl rfl
  | @card sel cat _ hcat ih =>
    rcases ih with h | ⟨p, hp, hmem⟩
    · subst h
      exact Or.inr ⟨cat, rfl, hcat⟩
    · subst hp
      exact Or.inr ⟨p, rfl, hmem⟩
  | back _ _ _ => exact Or.inl rfl

/-- Witness of C12: with a root category `Hair` and its child `Braids`, a click on `Hair` and
then on `Braids` leaves `Hair`, a root category, as the open parent. -/
theorem cardClick_spec_witness :
    cardClick (cardClick none ⟨"a", "Hair", .null, .null⟩) ⟨"b", "Braids", .null, .val "a"⟩
      = some ⟨"a", "Hair", .null, .null⟩ ∧
    (cardClick (cardClick none ⟨"a", "Hair", .null, .null⟩) ⟨"b", "Braids", .null, .val "a"⟩
        = none ∨
      ∃ p, cardClick (cardClick none ⟨"a", "Hair", .null, .null⟩)
          ⟨"b", "Braids", .null, .val "a"⟩ = some p ∧
        p ∈ displayedCategories
          [⟨"a", "Hair", .null, .null⟩, ⟨"b", "Braids", .null, .val "a"⟩] none) :=
  ⟨rfl, (cardClick_spec
      [⟨"a", "Hair", .null, .null⟩, ⟨"b", "Braids", .null, .val "a"⟩]).2.2 _
    (Reachable.card (Reachable.card Reachable.init (by decide)) (by decide))⟩

/-- C13: from the root, a click on any displayed category opens it, and the Back button then
clears the open parent; the displayed list is again the root listing. -/
theorem back_after_open (categories : List Category) (cat : Category)
    (hcat : cat ∈ displayedCategories categories none) :
    cardClick none cat = some cat ∧
    backClick (cardClick none cat) = none ∧
    displayedCategories categories (backClick (cardClick none cat)) =
      displayedCategories categories none ∧
    Reachable categories (backClick (cardClick none cat)) := by
  refine ⟨rfl, rfl, rfl, ?_⟩
  exact Reachable.back (Reachable.card Reachable.init hcat) (by simp [cardClick])

/-- Witness of C13: opening the root category `Hair` and going back. -/
theorem back_after_open_witness :
    displayedCategories [⟨"a", "Hair", .null, .null⟩, ⟨"b", "Braids", .null, .val "a"⟩]
      (backClick (cardClick none ⟨"a", "Hair", .null, .null⟩))
      = [⟨"a", "Hair", .null, .null⟩] :=
  (back_after_open [⟨"a", "Hair", .null, .null⟩, ⟨"b", "Braids", .null, .val "a"⟩]
    ⟨"a", "Hair", .null, .null⟩ (by decide)).2.2.1.trans (by decide)

/-! ## Theorems: creating and deleting a category -/

/-- C14: for a form with a non-empty name, whatever the requests settle to, the first effect of
`handleAddCategory` is the request `POST /admin/categories`, and it is the only `POST`; its
payload carries the name and the description of the form unchanged, and as `parent_id` the id
of the open parent when a parent is open and `null` at root. -/
theorem handleAddCategory_payload (st : State) (postResult : Except String Unit)
    (getResult : Except String (List Category)) (hname : st.newCatForm.name ≠ "") :
    (∀ p, st.selectedParent = some p →
      (handleAddCategory st postResult getResult).2.head? =
        some (.request "POST" "/admin/categories"
          (some (.obj [("name", .str st.newCatForm.name),
            ("description", .str st.newCatForm.description), ("parent_id", .str p.id)])))) ∧
    (st.selectedParent = none →
      (handleAddCategory st postResult getResult).2.head? =
        some (.request "POST" "/admin/categories"
          (some (.obj [("name", .str st.newCatForm.name),
            ("description", .str st.newCatForm.description), ("parent_id", .null)])))) ∧
    (requests (handleAddCategory st postResult getResult).2).filter
      (fun r => r.1 == "POST") = [("POST", "/admin/categories")] := by
  refine ⟨?_, ?_, ?_⟩
  · intro p hp
    unfold handleAddCategory
    rw [if_neg hname]
    cases postResult with
    | error msg => simp [addPayload, hp]
    | ok u => cases getResult <;> simp [addPayload, hp]
  · intro hp
    unfold handleAddCategory
    rw [if_neg hname]
    cases postResult with
    | error msg => simp [addPayload, hp]
    | ok u => cases getResult <;> simp [addPayload, hp]
  · unfold handleAddCategory
    rw [if_neg hname]
    cases postResult with
    | error msg => simp [requests]
    | ok u => cases getResult <;> simp [requests]

/-- Witness of C14: adding `Box Braids` while the category with id `a` is open. -/
theorem handleAddCategory_payload_witness :
    (handleAddCategory ⟨[], some ⟨"a", "Hair", .null, .null⟩, ⟨"Box Braids", "long"⟩⟩
      (.ok ()) (.ok [])).2.head? =
      some (.request "POST" "/admin/categories"
        (some (.obj [("name", .str "Box Braids"), ("description", .str "long"),
          ("parent_id", .str "a")]))) :=
  (handleAddCategory_payload ⟨[], some ⟨"a", "Hair", .null, .null⟩, ⟨"Box Braids", "long"⟩⟩
    (.ok ()) (.ok []) (by decide)).1 ⟨"a", "Hair", .null, .null⟩ rfl

/-- C15: once the user has confirmed, `handleDeleteCategory` issues exactly one request,
`DELETE /admin/categories/<id>` for the given id, and none for a descendant. When the request
succeeds the category list becomes the old list without the entries of that id: every other
entry stays, in its place, children of the deleted category included. -/
theorem handleDeleteCategory_spec (st : State) (id : String)
    (deleteResult : Except String Unit) :
    requests (handleDeleteCategory st id true deleteResult).2 =
      [("DELETE", "/admin/categories/" ++ id)] ∧
    (∀ u, deleteResult = .ok u →
      (handleDeleteCategory st id true deleteResult).1.categories =
        st.categories.filter (fun c => decide (c.id ≠ id)) ∧
      (∀ c, c ∈ (handleDeleteCategory st id true deleteResult).1.categories ↔
        c ∈ st.categories ∧ c.id ≠ id) ∧
      (∀ c, c ∈ st.categories → c.parent_category_id = .val id → c.id ≠ id →
        c ∈ (handleDeleteCategory st id true deleteResult).1.categories)) := by
  constructor
  · cases deleteResult <;> simp [handleDeleteCategory, requests]
  · intro u hu
    subst hu
    have key : (handleDeleteCategory st id true (.ok u)).1.categories =
        st.categories.filter (fun c => decide (c.id ≠ id)) := by
      show st.categories.filter (fun c => c.id != id) = _
      congr 1
      funext c
      by_cases hc : c.id = id <;> simp [hc]
    refine ⟨key, ?_, ?_⟩
    · intro c
      rw [key]
      simp [List.mem_filter]
    · intro c hc _ hne
      rw [key]
      simp [List.mem_filter, hc, hne]

/-- Witness of C15: deleting the root category `a` keeps its child `b` in the client list. -/
theorem handleDeleteCategory_spec_witness :
    (handleDeleteCategory
      ⟨[⟨"a", "Hair", .null, .null⟩, ⟨"b", "Braids", .null, .val "a"⟩], none, ⟨"", ""⟩⟩
      "a" true (.ok ())).1.categories = [⟨"b", "Braids", .null, .val "a"⟩] :=
  ((handleDeleteCategory_spec
      ⟨[⟨"a", "Hair", .null, .null⟩, ⟨"b", "Braids", .null, .val "a"⟩], none, ⟨"", ""⟩⟩
      "a" (.ok ())).2 () rfl).1.trans (by decide)

/-! ## Lemmas: property lists -/

theorem lookup_cons_self {α : Type} (ps : List (String × α)) (k : String) (v : α) :
    List.lookup k ((k, v) :: ps) = some v := by
  simp [List.lookup]

theorem lookup_cons_of_ne {α : Type} (ps : List (String × α)) (k k2 : String) (v : α)
    (hne : k2 ≠ k) : List.lookup k2 ((k, v) :: ps) = List.lookup k2 ps := by
  have hb : (k2 == k) = false := beq_eq_false_iff_ne.mpr hne
  rw [List.lookup, hb]

theorem lookup_map_set {α : Type} (props : List (String × α)) (k : String) (v : α)
    (h : props.any (fun p => p.1 == k) = true) :
    (props.map (fun p => if p.1 == k then (k, v) else p)).lookup k = some v := by
  induction props with
  | nil => simp at h
  | cons p ps ih =>
    obtain ⟨pk, pv⟩ := p
    rw [List.map_cons]
    by_cases hp : pk = k
    · rw [if_pos (by simp [hp])]
      exact lookup_cons_self _ k v
    · have h2 : ps.any (fun p => p.1 == k) = true := by
        simpa [List.any_cons, hp] using h
      rw [if_neg (by simp [hp]), lookup_cons_of_ne _ pk k pv (fun e => hp e.symm)]
      exact ih h2

theorem lookup_map_set_ne {α : Type} (props : List (String × α)) (k k2 : String) (v : α)
    (hne : k2 ≠ k) :
    (props.map (fun p => if p.1 == k then (k, v) else p)).lookup k2 = props.lookup k2 := by
  induction props with
  | nil => rfl
  | cons p ps ih =>
    obtain ⟨pk, pv⟩ := p
    rw [List.map_cons]
    by_cases hp : pk = k
    · rw [if_pos (by simp [hp]), lookup_cons_of_ne _ k k2 v hne,
        lookup_cons_of_ne _ pk k2 pv (by rw [hp]; exact hne)]
      exact ih
    · rw [if_neg (by simp [hp])]
      by_cases h2 : k2 = pk
      · subst h2
        rw [lookup_cons_self, lookup_cons_self]
      · rw [lookup_cons_of_ne _ pk k2 pv h2, lookup_cons_of_ne _ pk k2 pv h2]
        exact ih

theorem lookup_append_single {α : Type} (props : List (String × α)) (k k2 : String) (v : α) :
    (props ++ [(k, v)]).lookup k2 =
      (props.lookup k2).orElse (fun _ => if k2 = k then some v else none) := by
  induction props with
  | nil =>
    by_cases h : k2 = k
    · subst h
      rw [List.nil_append, lookup_cons_self]
      simp
    · rw [List.nil_append, lookup_cons_of_ne _ k k2 v h]
      simp [h]
  | cons p ps ih =>
    obtain ⟨pk, pv⟩ := p
    rw [List.cons_append]
    by_cases h2 : k2 = pk
    · subst h2
      rw [lookup_cons_self, lookup_cons_self]
      rfl
    · rw [lookup_cons_of_ne _ pk k2 pv h2, lookup_cons_of_ne _ pk k2 pv h2]
      exact ih

theorem lookup_eq_none_of_not_any {α : Type} (props : List (String × α)) (k : String)
    (h : ¬ props.any (fun p => p.1 == k) = true) : props.lookup k = none := by
  induction props with
  | nil => rfl
  | cons p ps ih =>
    obtain ⟨pk, pv⟩ := p
    simp only [List.any_cons, Bool.or_eq_true, not_or] at h
    have hne : k ≠ pk := fun e => h.1 (by simp [e])
    rw [lookup_cons_of_ne _ pk k pv hne]
    exact ih h.2

/-- After `o[k] = v`, reading `k` gives `v`. -/
theorem lookup_setProp {α : Type} (props : List (String × α)) (k : String) (v : α) :
    (setProp props k v).lookup k = some v := by
  unfold setProp
  split
  · next h => exact lookup_map_set props k v h
  · next h =>
    rw [lookup_append_single, lookup_eq_none_of_not_any props k h]
    simp

/-- After `o[k] = v`, every other property reads as before. -/
theorem lookup_setProp_ne {α : Type} (props : List (String × α)) (k k2 : String) (v : α)
    (hne : k2 ≠ k) : (setProp props k v).lookup k2 = props.lookup k2 := by
  unfold setProp
  split
  · exact lookup_map_set_ne props k k2 v hne
  · rw [lookup_append_single]
    cases props.lookup k2 <;> simp [hne]

/-! ## Theorems: the interceptors -/

open Api

/-- C16: when a credential is stored under `admin_token`, the request interceptor returns the
configuration with the header `Authorization` set to `Bearer ` followed by the token and every
other header as it was; when nothing is stored (or only the empty string, which is no
credential) it returns the configuration as it was. The url, the method and the data of the
configuration are unchanged in every case. -/
theorem requestInterceptor_spec (b : Browser) (config : RequestConfig) :
    (∀ token, b.getItem "admin_token" = some token → token ≠ "" →
      (requestInterceptor b config).headers.lookup "Authorization" = some ("Bearer " ++ token) ∧
      ∀ k, k ≠ "Authorization" →
        (requestInterceptor b config).headers.lookup k = config.headers.lookup k) ∧
    (b.getItem "admin_token" = none ∨ b.getItem "admin_token" = some "" →
      requestInterceptor b config = config) ∧
    (requestInterceptor b config).url = config.url ∧
    (requestInterceptor b config).method = config.method ∧
    (requestInterceptor b config).data = config.data := by
  refine ⟨?_, ?_, ?_, ?_, ?_⟩
  · intro token ht hne
    simp only [requestInterceptor, ht, if_pos hne]
    exact ⟨lookup_setProp _ _ _, fun k hk => lookup_setProp_ne _ _ k _ hk⟩
  · rintro (h | h) <;> simp [requestInterceptor, h]
  all_goals
    unfold requestInterceptor
    split
    · split <;> rfl
    · rfl

/-- Witness of C16: the stored token `abc` is attached to a request that carries one header. -/
theorem requestInterceptor_spec_witness :
    (requestInterceptor ⟨[("admin_token", "abc")], "/", []⟩
      ⟨"/events", "get", none, [("Accept", "application/json")]⟩).headers.lookup "Authorization"
      = some "Bearer abc" :=
  ((requestInterceptor_spec ⟨[("admin_token", "abc")], "/", []⟩
      ⟨"/events", "get", none, [("Accept", "application/json")]⟩).1 "abc" rfl
    (by decide)).1

/-- Counterexample for C17: a 401 that arrives while the login view is shown clears the storage
but carries out no redirect, so the redirect is not unconditional. -/
theorem responseRejected_redirect_not_unconditional :
    ¬ ∀ (b : Browser) (err : AxiosError) (r : ErrorResponse),
      err.response = some r → r.status = 401 →
      (responseRejected b err).1.localStorage = [] ∧
      (responseRejected b err).1.navigations = b.navigations ++ ["/login"] := by
  intro h
  have h1 := (h ⟨[("admin_token", "abc")], "/login", []⟩
    ⟨"Request failed with status code 401", some ⟨401, .undefined⟩⟩ ⟨401, .undefined⟩
    rfl rfl).2
  simp [responseRejected, Browser.clear] at h1

/-- C17, amended: for every error whose response has status 401, whatever call it belongs to,
the response interceptor empties the local storage and, unless the path is already `/login`,
navigates to `/login`; when the path is `/login` it carries out no navigation. In both cases
the path is `/login` afterwards and the promise rejects with the same error. -/
theorem responseRejected_unauthorized (b : Browser) (err : AxiosError) (r : ErrorResponse)
    (hr : err.response = some r) (h401 : r.status = 401) :
    (responseRejected b err).1.localStorage = [] ∧
    (∀ k, (responseRejected b err).1.getItem k = none) ∧
    (responseRejected b err).1.pathname = "/login" ∧
    (b.pathname ≠ "/login" →
      (responseRejected b err).1.navigations = b.navigations ++ ["/login"]) ∧
    (b.pathname = "/login" → (responseRejected b err).1.navigations = b.navigations) ∧
    (responseRejected b err).2 = err := by
  by_cases hp : b.pathname = "/login"
  · simp [responseRejected, hr, h401, Browser.clear, Browser.getItem, hp]
  · simp [responseRejected, hr, h401, Browser.clear, Browser.getItem, Browser.navigate, hp]

/-- Witness of C17: a 401 on the dashboard empties the storage and navigates to `/login`. -/
theorem responseRejected_unauthorized_witness :
    (responseRejected ⟨[("admin_token", "abc")], "/", []⟩
      ⟨"Request failed with status code 401", some ⟨401, .undefined⟩⟩).1.localStorage = [] ∧
    (responseRejected ⟨[("admin_token", "abc")], "/", []⟩
      ⟨"Request failed with status code 401", some ⟨401, .undefined⟩⟩).1.navigations
      = ["/login"] :=
  ⟨(responseRejected_unauthorized ⟨[("admin_token", "abc")], "/", []⟩
      ⟨"Request failed with status code 401", some ⟨401, .undefined⟩⟩ ⟨401, .undefined⟩
      rfl rfl).1,
   (responseRejected_unauthorized ⟨[("admin_token", "abc")], "/", []⟩
      ⟨"Request failed with status code 401", some ⟨401, .undefined⟩⟩ ⟨401, .undefined⟩
      rfl rfl).2.2.2.1 (by decide)⟩

/-- C18: for an error without response, and for one whose response has a status other than
401, the response interceptor rejects with that same error and leaves the browser (local
storage, path, navigations) as it was. -/
theorem responseRejected_other (b : Browser) (err : AxiosError)
    (h : err.response = none ∨ ∃ r, err.response = some r ∧ r.status ≠ 401) :
    responseRejected b err = (b, err) := by
  rcases h with h | ⟨r, hr, hs⟩
  · simp [responseRejected, h]
  · simp [responseRejected, hr, hs]

/-- Witness of C18: a 500 and a network error on the dashboard change nothing. -/
theorem responseRejected_other_witness :
    responseRejected ⟨[("admin_token", "abc")], "/", []⟩
        ⟨"Request failed with status code 500", some ⟨500, .val "boom"⟩⟩ =
      (⟨[("admin_token", "abc")], "/", []⟩,
        ⟨"Request failed with status code 500", some ⟨500, .val "boom"⟩⟩) ∧
    responseRejected ⟨[("admin_token", "abc")], "/", []⟩ ⟨"Network Error", none⟩ =
      (⟨[("admin_token", "abc")], "/", []⟩, ⟨"Network Error", none⟩) :=
  ⟨responseRejected_other _ _ (Or.inr ⟨⟨500, .val "boom"⟩, rfl, by decide⟩),
   responseRejected_other _ _ (Or.inl rfl)⟩

/-! ## Theorems: login and logout -/

open Login Layout

/-- The role test of `handleLogin` holds exactly for a profile object whose `role` is the
string `admin`. -/
theorem isAdmin_iff (profile : Option Json) :
    isAdmin profile = true ↔
      ∃ props, profile = some (.obj props) ∧ props.lookup "role" = some (.str "admin") := by
  constructor
  · intro h
    match profile, h with
    | some (.obj props), h =>
      refine ⟨props, rfl, ?_⟩
      simp only [isAdmin] at h
      split at h
      · next role hrole =>
        have : role = "admin" := by simpa using h
        rw [hrole, this]
      · simp at h
  · rintro ⟨props, rfl, hrole⟩
    simp [isAdmin, hrole]

/-- C19: for a fulfilled login response, `handleLogin` stores the access token under
`admin_token` and the serialized user object under `admin_user` and navigates to `/` when the
profile is an object whose `role` is exactly `admin`; in every other case (no profile, no
role, another role) it leaves storage and location as they were and sets the access-denied
error. The user object keeps every property of `user` but `user_metadata`. -/
theorem handleLogin_role_gate (stringify : Json → String) (b : Browser) (d : LoginData) :
    ((∃ props, d.profile = some (.obj props) ∧ props.lookup "role" = some (.str "admin")) →
      (handleLogin stringify b (.ok d)).1 =
        ((b.setItem "admin_token" d.access_token).setItem "admin_user"
          (stringify (userData d))).navigate "/" ∧
      (handleLogin stringify b (.ok d)).1.getItem "admin_token" = some d.access_token ∧
      (handleLogin stringify b (.ok d)).1.getItem "admin_user" =
        some (stringify (userData d)) ∧
      (handleLogin stringify b (.ok d)).1.pathname = "/" ∧
      (handleLogin stringify b (.ok d)).1.navigations = b.navigations ++ ["/"] ∧
      (handleLogin stringify b (.ok d)).2 = ⟨false, ""⟩) ∧
    ((¬ ∃ props, d.profile = some (.obj props) ∧ props.lookup "role" = some (.str "admin")) →
      (handleLogin stringify b (.ok d)).1 = b ∧
      (handleLogin stringify b (.ok d)).2 =
        ⟨false, "Access Denied. Administrator privileges required."⟩) ∧
    (∃ props, userData d = .obj props ∧
      ∀ k, k ≠ "user_metadata" → props.lookup k = d.user.lookup k) := by
  refine ⟨?_, ?_, ?_⟩
  · intro hrole
    have hadm : isAdmin d.profile = true := (isAdmin_iff _).2 hrole
    have hne : ("admin_token" : String) ≠ "admin_user" := by decide
    refine ⟨by simp [handleLogin, hadm], ?_, ?_, by simp [handleLogin, hadm, Browser.navigate],
      by simp [handleLogin, hadm, Browser.navigate, Browser.setItem],
      by simp [handleLogin, hadm]⟩
    · simp only [handleLogin, hadm, Bool.not_true, Bool.false_eq_true, if_false,
        Browser.navigate, Browser.getItem, Browser.setItem]
      rw [lookup_setProp_ne _ _ _ _ hne]
      exact lookup_setProp _ _ _
    · simp only [handleLogin, hadm, Bool.not_true, Bool.false_eq_true, if_false,
        Browser.navigate, Browser.getItem, Browser.setItem]
      exact lookup_setProp _ _ _
  · intro hrole
    have hadm : isAdmin d.profile = false := by
      cases h : isAdmin d.profile
      · rfl
      · exact absurd ((isAdmin_iff _).1 h) hrole
    simp [handleLogin, hadm]
  · exact ⟨_, rfl, fun k hk => lookup_setProp_ne _ _ k _ hk⟩

/-- Witness of C19: an administrator logs in from the login view. -/
theorem handleLogin_role_gate_witness :
    (handleLogin (fun _ => "json") ⟨[], "/login", []⟩
      (.ok ⟨[("id", .str "u1")], "tok", some (.obj [("role", .str "admin")])⟩)).1.getItem
        "admin_token" = some "tok" ∧
    (handleLogin (fun _ => "json") ⟨[], "/login", []⟩
      (.ok ⟨[("id", .str "u1")], "tok", some (.obj [("role", .str "admin")])⟩)).1.pathname
        = "/" :=
  ⟨((handleLogin_role_gate (fun _ => "json") ⟨[], "/login", []⟩
      ⟨[("id", .str "u1")], "tok", some (.obj [("role", .str "admin")])⟩).1
      ⟨[("role", .str "admin")], rfl, rfl⟩).2.1,
   ((handleLogin_role_gate (fun _ => "json") ⟨[], "/login", []⟩
      ⟨[("id", .str "u1")], "tok", some (.obj [("role", .str "admin")])⟩).1
      ⟨[("role", .str "admin")], rfl, rfl⟩).2.2.2.1⟩

/-- C20: `handleLogout` clears the local storage in full, so that afterwards no key has a value,
`admin_token` and `admin_user` included, and navigates to the login view `/login`. -/
theorem handleLogout_spec (b : Browser) :
    (handleLogout b).localStorage = [] ∧
    (∀ k, (handleLogout b).getItem k = none) ∧
    (handleLogout b).getItem "admin_token" = none ∧
    (handleLogout b).getItem "admin_user" = none ∧
    (handleLogout b).pathname = "/login" ∧
    (handleLogout b).navigations = b.navigations ++ ["/login"] :=
  ⟨rfl, fun _ => rfl, rfl, rfl, rfl, rfl⟩

/-! ## Theorems: the status filter of `getProcessedEvents` -/

theorem read_sortByPrice_perm (h : Heap Event) (r : ℕ) (sp : String) (hr : r < h.length) :
    ((sortByPrice h r sp).read r).Perm (h.read r) := by
  unfold sortByPrice
  split
  · rw [read_arraySort _ _ _ hr]; exact jsSort_perm _ _
  · split
    · rw [read_arraySort _ _ _ hr]; exact jsSort_perm _ _
    · exact List.Perm.refl _

theorem read_sortByDate_perm (h : Heap Event) (r : ℕ) (sd : String) (hr : r < h.length) :
    ((sortByDate h r sd).read r).Perm (h.read r) := by
  unfold sortByDate
  split
  · rw [read_arraySort _ _ _ hr]; exact jsSort_perm _ _
  · split
    · rw [read_arraySort _ _ _ hr]; exact jsSort_perm _ _
    · exact List.Perm.refl _

/-- For every setting the returned array is a permutation of the events the status filter
keeps. -/
theorem processedEvents_perm_kept (h : Heap Event) (events : ℕ) (fs sp sd : String) :
    (processedEvents h events fs sp sd).Perm ((h.read events).filter (keptByStatus fs)) := by
  have hs0 : (spread h events).2 < (spread h events).1.length := by
    simp only [spread, Heap.ref_alloc, Heap.length_alloc]; omega
  obtain ⟨-, hlt, hread, -⟩ := filterByStatus_spec (spread h events).1 (spread h events).2 fs hs0
  have hsrc : (spread h events).1.read (spread h events).2 = h.read events :=
    Heap.read_alloc h _
  rw [hsrc] at hread
  simp only [processedEvents, getProcessedEvents]
  refine (read_sortByDate_perm _ _ sd (by rw [length_sortByPrice]; exact hlt)).trans ?_
  refine (read_sortByPrice_perm _ _ sp hlt).trans ?_
  rw [hread]

/-- C25: for every events list and every filter and sort setting, what `getProcessedEvents`
returns is a permutation of the events that pass the status filter: every event for
`All Events`, the events whose status is `Active` for `Active`, those whose status is
`Inactive` for `Inactive`. An event occurs in the result as often as among the events that
pass, so sorting drops and duplicates nothing. -/
theorem processedEvents_perm (h : Heap Event) (events : ℕ) (fs sp sd : String) :
    (processedEvents h events fs sp sd).Perm ((h.read events).filter (keptByStatus fs)) ∧
    (∀ e, e ∈ processedEvents h events fs sp sd ↔
      e ∈ h.read events ∧ keptByStatus fs e = true) ∧
    (∀ e, (processedEvents h events fs sp sd).count e =
      ((h.read events).filter (keptByStatus fs)).count e) ∧
    (processedEvents h events "All Events" sp sd).Perm (h.read events) ∧
    (∀ e, keptByStatus "All Events" e = true) ∧
    (∀ e, keptByStatus "Active" e = true ↔ e.status = .val "Active") ∧
    (∀ e, keptByStatus "Inactive" e = true ↔ e.status = .val "Inactive") := by
  have hp := processedEvents_perm_kept h events fs sp sd
  have hall : ∀ e, keptByStatus "All Events" e = true := by
    intro e
    have h1 : ("All Events" : String) ≠ "Active" := by decide
    have h2 : ("All Events" : String) ≠ "Inactive" := by decide
    simp [keptByStatus, h1, h2]
  refine ⟨hp, ?_, fun e => hp.count_eq e, ?_, hall, ?_, ?_⟩
  · intro e
    rw [hp.mem_iff, List.mem_filter]
  · have hp2 := processedEvents_perm_kept h events "All Events" sp sd
    have hf : (h.read events).filter (keptByStatus "All Events") = h.read events :=
      List.filter_eq_self.2 (fun e _ => hall e)
    rwa [hf] at hp2
  · intro e
    simp [keptByStatus]
  · intro e
    have h1 : ("Inactive" : String) ≠ "Active" := by decide
    simp [keptByStatus, h1]

/-! ## Theorems: the route guard -/

open App

/-- C26: `PrivateRoute` renders its children if and only if a non-empty `admin_token` is
stored, and otherwise a redirect to `/login`; after `handleLogout`, and after the response
interceptor has handled a 401, it renders the redirect. -/
theorem privateRoute_spec (b : Browser) :
    (PrivateRoute b = .children ↔ ∃ t, b.getItem "admin_token" = some t ∧ t ≠ "") ∧
    (PrivateRoute b = .children ∨ PrivateRoute b = .navigate "/login") ∧
    PrivateRoute (handleLogout b) = .navigate "/login" ∧
    (∀ (err : AxiosError) (r : ErrorResponse), err.response = some r → r.status = 401 →
      PrivateRoute (responseRejected b err).1 = .navigate "/login") := by
  refine ⟨?_, ?_, rfl, ?_⟩
  · unfold PrivateRoute
    cases ht : b.getItem "admin_token" with
    | none => simp
    | some t => by_cases h : t = "" <;> simp [h]
  · unfold PrivateRoute
    cases ht : b.getItem "admin_token" with
    | none => simp
    | some t => by_cases h : t = "" <;> simp [h]
  · intro err r hr h401
    by_cases hp : b.pathname = "/login"
    · simp [responseRejected, hr, h401, hp, PrivateRoute, Browser.clear, Browser.getItem]
    · simp [responseRejected, hr, h401, hp, PrivateRoute, Browser.clear, Browser.getItem,
        Browser.navigate]

/-- Witness of C26: with a stored token the dashboard renders; after a 401 it does not. -/
theorem privateRoute_spec_witness :
    PrivateRoute ⟨[("admin_token", "abc")], "/", []⟩ = .children ∧
    PrivateRoute (responseRejected ⟨[("admin_token", "abc")], "/", []⟩
      ⟨"Request failed with status code 401", some ⟨401, .undefined⟩⟩).1
      = .navigate "/login" :=
  ⟨(privateRoute_spec ⟨[("admin_token", "abc")], "/", []⟩).1.2 ⟨"abc", rfl, by decide⟩,
   (privateRoute_spec ⟨[("admin_token", "abc")], "/", []⟩).2.2.2
     ⟨"Request failed with status code 401", some ⟨401, .undefined⟩⟩ ⟨401, .undefined⟩
     rfl rfl⟩

/-! ## Theorems: orphaned sub-categories -/

/-- Every state the navigator reaches is the root or an open category of the root listing. -/
theorem reachable_root (categories : List Category) (sel : Option Category)
    (hsel : Reachable categories sel) :
    sel = none ∨ ∃ p, sel = some p ∧ p ∈ displayedCategories categories none := by
  induction hsel with
  | init => exact Or.inl rfl
  | @card sel cat _ hcat ih =>
    rcases ih with h | ⟨p, hp, hmem⟩
    · subst h
      exact Or.inr ⟨cat, rfl, hcat⟩
    · subst hp
      exact Or.inr ⟨p, rfl, hmem⟩
  | back _ _ _ => exact Or.inl rfl

/-- C27: for a fixed category list, a category whose parent reference is a non-empty
identifier that is the id of no category of the root listing is displayed in no state the
navigator reaches from the root view: not at root, and not inside any opened category. -/
theorem orphan_not_displayed (categories : List Category) (c : Category) (s : String)
    (hparent : c.parent_category_id = .val s) (hs : s ≠ "")
    (horphan : ∀ p, p ∈ displayedCategories categories none → p.id ≠ s)
    (sel : Option Category) (hsel : Reachable categories sel) :
    c ∉ displayedCategories categories sel := by
  rcases reachable_root categories sel hsel with h | ⟨p, hp, hmem⟩
  · subst h
    intro hc
    simp [displayedCategories, List.mem_filter, hparent, Field.truthyStr, hs] at hc
  · subst hp
    intro hc
    simp only [displayedCategories, List.mem_filter, decide_eq_true_eq, hparent] at hc
    have : s = p.id := by
      have h2 := hc.2
      injection h2
    exact horphan p hmem this.symm

/-- Witness of C27: `Braids` refers to the deleted category `x`; it is shown neither at root
nor inside `Hair`. -/
theorem orphan_not_displayed_witness :
    (⟨"b", "Braids", .null, .val "x"⟩ : Category) ∉ displayedCategories
      [⟨"a", "Hair", .null, .null⟩, ⟨"b", "Braids", .null, .val "x"⟩]
      (cardClick none ⟨"a", "Hair", .null, .null⟩) :=
  orphan_not_displayed [⟨"a", "Hair", .null, .null⟩, ⟨"b", "Braids", .null, .val "x"⟩]
    ⟨"b", "Braids", .null, .val "x"⟩ "x" rfl (by decide)
    (by
      intro p hp
      have hp2 : p = ⟨"a", "Hair", .null, .null⟩ := by
        simpa [displayedCategories, Field.truthyStr] using hp
      rw [hp2]
      decide)
    _ (Reachable.card Reachable.init (by decide))

/-! ## Theorems: tabs against badges -/

/-- A booking with the status `active` has the badge label `Upcoming`. -/
theorem statusBadge_active_label (parseDate : String → Option ℤ) (now : ℤ) (b : Booking)
    (h : b.status = .val "active") : (statusBadge parseDate now b).label = "Upcoming" := by
  have h₁ : (Field.val "active" : Field String) ≠ .val "completed" := by decide
  have h₂ : (Field.val "active" : Field String) ≠ .val "cancelled" := by decide
  have h₃ : (Field.val "active" : Field String) ≠ .val "confirmed" := by decide
  have h₄ : (Field.val "active" : Field String) ≠ .val "pending" := by decide
  simp only [statusBadge, h, h₁, h₂, h₃, h₄, if_false]
  split <;> rfl

/-- C28: a booking that passes the `Upcoming` tab filter (status `confirmed` or `pending`,
time strictly after now) gets the badge label `Upcoming` at the same current time. The
converse fails: a booking with the status `active` has the label `Upcoming` and does not pass
the filter. -/
theorem upcomingTab_label (parseDate : String → Option ℤ) (now : ℤ) :
    (∀ b, isUpcomingTab parseDate now b = true →
      (statusBadge parseDate now b).label = "Upcoming") ∧
    (∃ b, (statusBadge parseDate now b).label = "Upcoming" ∧
      isUpcomingTab parseDate now b = false) := by
  constructor
  · intro b hb
    simp only [isUpcomingTab, Bool.and_eq_true, Bool.or_eq_true, decide_eq_true_eq] at hb
    obtain ⟨hst, hfut⟩ := hb
    have hpast : isPast (date parseDate b) now = false := by
      unfold date
      cases hd : newDate parseDate (jsOrStr b.scheduled_time b.created_at) with
      | none => rfl
      | some t =>
        rw [hd] at hfut
        simp only [isFuture, decide_eq_true_eq] at hfut
        simp only [isPast, decide_eq_false_iff_not, not_lt]
        omega
    rcases hst with h | h <;> simp [statusBadge, h, hpast]
  · refine ⟨⟨0, .val "active", .null, .null, .null, .null⟩, ?_, ?_⟩
    · exact statusBadge_active_label parseDate now _ rfl
    · simp [isUpcomingTab]

/-- Witness of C28: a confirmed booking scheduled at 20, seen at time 10. -/
theorem upcomingTab_label_witness :
    (statusBadge (fun _ => some 20) 10
      ⟨1, .val "confirmed", .val "d", .null, .val 200, .undefined⟩).label = "Upcoming" :=
  (upcomingTab_label (fun _ => some 20) 10).1
    ⟨1, .val "confirmed", .val "d", .null, .val 200, .undefined⟩ (by decide)

/-- C29: a booking with the stored status `active` passes the `Completed` tab filter for every
time, so it is listed under that tab whenever it is among the bookings, and its badge label
is `Upcoming`, not `Completed`. -/
theorem active_in_completed_tab (parseDate : String → Option ℤ) (now : ℤ) (b : Booking)
    (h : b.status = .val "active") :
    isCompletedTab b = true ∧
    (statusBadge parseDate now b).label = "Upcoming" ∧
    (statusBadge parseDate now b).label ≠ "Completed" ∧
    (∀ (toLowerCase : String → String) (hp : Heap Booking) (bookings : ℕ),
      b ∈ hp.read bookings →
      b ∈ filteredBookings parseDate toLowerCase now hp bookings "Completed" "") := by
  have hc : isCompletedTab b = true := by simp [isCompletedTab, h]
  have hl := statusBadge_active_label parseDate now b h
  refine ⟨hc, hl, ?_, ?_⟩
  · rw [hl]; decide
  · intro toLowerCase hp bookings hmem
    rw [filteredBookings_eq]
    simp only [ne_eq, not_true_eq_false, if_false, List.mem_filter]
    exact ⟨hmem, by simp [passesTab, hc]⟩

/-- Witness of C29: an `active` booking in the past is listed under `Completed`. -/
theorem active_in_completed_tab_witness :
    (⟨1, .val "active", .val "d", .null, .val 200, .undefined⟩ : Booking) ∈
      filteredBookings (fun _ => some 3) (fun s => s) 10
        [[⟨1, .val "active", .val "d", .null, .val 200, .undefined⟩]] 0 "Completed" "" ∧
    (statusBadge (fun _ => some 3) 10
      ⟨1, .val "active", .val "d", .null, .val 200, .undefined⟩).label = "Upcoming" :=
  ⟨(active_in_completed_tab (fun _ => some 3) 10
      ⟨1, .val "active", .val "d", .null, .val 200, .undefined⟩ rfl).2.2.2 (fun s => s)
      [[⟨1, .val "active", .val "d", .null, .val 200, .undefined⟩]] 0 (by simp [Heap.read]),
   (active_in_completed_tab (fun _ => some 3) 10
      ⟨1, .val "active", .val "d", .null, .val 200, .undefined⟩ rfl).2.1⟩

/-! ## Theorems: the withdrawal -/

open Analytics

/-- C30: `handleWithdraw` sends the withdrawal request if and only if the entered amount is
not empty and parses to a number `a` with `0 < a` and `a ≤ available_balance`; the amount of
the request is then `a`. Otherwise (empty, not a number, zero, negative, above the balance) it
sends no request and leaves the state as it was. The amount comes from a number input, whose
value is empty or a string that `Number` and `parseFloat` both read or both reject. -/
theorem handleWithdraw_spec (toNumber parseFloat : String → JsNum) (st : AnalyticsState)
    (postResult : Except String Unit) (fetchResult : Except String ℚ)
    (hinput : st.withdrawAmount = "" ∨
      (toNumber st.withdrawAmount = .nan ↔ parseFloat st.withdrawAmount = .nan)) :
    (∀ a, st.withdrawAmount ≠ "" → parseFloat st.withdrawAmount = .fin a → 0 < a →
      a ≤ st.available_balance →
      (handleWithdraw toNumber parseFloat st postResult fetchResult).2.head? =
        some (.request "POST" "/admin/withdraw"
          (some (.obj [("amount", .num a), ("destination", .str "Main Bank Account")]))) ∧
      ("POST", "/admin/withdraw") ∈
        requests (handleWithdraw toNumber parseFloat st postResult fetchResult).2) ∧
    ((¬ ∃ a, st.withdrawAmount ≠ "" ∧ parseFloat st.withdrawAmount = .fin a ∧ 0 < a ∧
        a ≤ st.available_balance) →
      requests (handleWithdraw toNumber parseFloat st postResult fetchResult).2 = [] ∧
      (handleWithdraw toNumber parseFloat st postResult fetchResult).1 = st) := by
  constructor
  · intro a hne hpf hpos hle
    have hnan : toNumber st.withdrawAmount ≠ .nan := by
      rcases hinput with h | h
      · exact absurd h hne
      · intro hn
        have := h.1 hn
        rw [hpf] at this
        cases this
    have h1 : (toNumber st.withdrawAmount).isNaN = false := by
      cases hn : toNumber st.withdrawAmount with
      | nan => exact absurd hn hnan
      | inf n => rfl
      | fin q => rfl
    have h2 : (JsNum.fin a).leZero = false := by
      simp [JsNum.leZero, hpos]
    have h3 : (JsNum.fin a).gtFin st.available_balance = false := by
      simp [JsNum.gtFin, hle]
    unfold handleWithdraw
    rw [hpf]
    simp only [hne, h1, h2, h3, false_or, Bool.false_eq_true, if_false]
    cases postResult <;> simp [requests, JsNum.toJson]
  · intro hno
    unfold handleWithdraw
    by_cases hc : st.withdrawAmount = "" ∨ (toNumber st.withdrawAmount).isNaN = true ∨
        (parseFloat st.withdrawAmount).leZero = true
    · rw [if_pos hc]
      exact ⟨rfl, rfl⟩
    · rw [if_neg hc]
      by_cases hg : (parseFloat st.withdrawAmount).gtFin st.available_balance = true
      · rw [if_pos hg]
        exact ⟨rfl, rfl⟩
      · exfalso
        simp only [not_or] at hc
        obtain ⟨hne, hnn, hlz⟩ := hc
        cases hpf : parseFloat st.withdrawAmount with
        | nan =>
          rcases hinput with h | h
          · exact hne h
          · have := h.2 hpf
            rw [this] at hnn
            exact hnn rfl
        | inf n =>
          rw [hpf] at hlz hg
          cases n <;> simp [JsNum.leZero, JsNum.gtFin] at hlz hg
        | fin q =>
          rw [hpf] at hlz hg
          simp only [JsNum.leZero, decide_eq_true_eq, not_le] at hlz
          simp only [JsNum.gtFin, decide_eq_true_eq, not_lt] at hg
          exact hno ⟨q, hne, hpf, hlz, hg⟩

/-- Witness of C30: with a balance of 100 the amount `40` is requested. -/
theorem handleWithdraw_spec_witness :
    (handleWithdraw (fun _ => .fin 40) (fun _ => .fin 40) ⟨100, true, "40", false⟩
      (.ok ()) (.ok 60)).2.head? =
      some (.request "POST" "/admin/withdraw"
        (some (.obj [("amount", .num 40), ("destination", .str "Main Bank Account")]))) :=
  ((handleWithdraw_spec (fun _ => .fin 40) (fun _ => .fin 40) ⟨100, true, "40", false⟩
    (.ok ()) (.ok 60) (Or.inr ⟨fun h => (by cases h), fun h => (by cases h)⟩)).1 40
    (by decide) rfl (by norm_num) (by norm_num)).1

/-! ## Theorems: validation before any request -/

/-- C23: when a required field is missing (event title, date or price; category name; post
content; admin email or password) the submit handler shows its message, issues no request,
and leaves the state of the page (collections and form) as it was, whatever the requests
would settle to. -/
theorem missing_field_no_request (parseFloat : String → JsNum) (es : EventsState)
    (cs : State) (fs : FeedsState) (as : AdminsState)
    (upload : Except String String) (post : Except String Unit)
    (getE : Except String (List Event)) (getC : Except String (List Category))
    (getP : Except String (List Post)) (getA : Except String (List Admin)) :
    (es.formData.title = "" ∨ es.formData.eventDate = "" ∨ es.formData.price = "" →
      requests (Events.handleSubmit parseFloat es upload post getE).2 = [] ∧
      (Events.handleSubmit parseFloat es upload post getE).1 = es) ∧
    (cs.newCatForm.name = "" →
      requests (handleAddCategory cs post getC).2 = [] ∧
      (handleAddCategory cs post getC).1.categories = cs.categories ∧
      (handleAddCategory cs post getC).1.newCatForm = cs.newCatForm ∧
      (handleAddCategory cs post getC).1.selectedParent = cs.selectedParent) ∧
    (fs.formData.content = "" →
      requests (Feeds.handleSubmit fs upload post getP).2 = [] ∧
      (Feeds.handleSubmit fs upload post getP).1 = fs) ∧
    (as.newAdminForm.email = "" ∨ as.newAdminForm.password = "" →
      requests (handleAddAdmin as post getA).2 = [] ∧
      (handleAddAdmin as post getA).1 = as) := by
  refine ⟨?_, ?_, ?_, ?_⟩
  · intro h
    unfold Events.handleSubmit
    rw [if_pos h]
    exact ⟨rfl, rfl⟩
  · intro h
    unfold handleAddCategory
    rw [if_pos h]
    exact ⟨rfl, rfl, rfl, rfl⟩
  · intro h
    unfold Feeds.handleSubmit
    rw [if_pos h]
    exact ⟨rfl, rfl⟩
  · intro h
    unfold handleAddAdmin
    rw [if_pos h]
    exact ⟨rfl, rfl⟩

/-- Witness of C23: an event form without price, with a file selected, sends nothing. -/
theorem missing_field_no_request_witness :
    requests (Events.handleSubmit (fun _ => .nan)
      ⟨[], none, ⟨"Jazz", "", "2025-01-01", "", "", "", some "a.png", some "blob:1"⟩⟩
      (.ok "https://cdn/a.png") (.ok ()) (.ok [])).2 = [] :=
  ((missing_field_no_request (fun _ => .nan)
    ⟨[], none, ⟨"Jazz", "", "2025-01-01", "", "", "", some "a.png", some "blob:1"⟩⟩
    ⟨[], none, ⟨"", ""⟩⟩ ⟨[], ⟨"", none, none⟩⟩ ⟨[], ⟨"", "", ""⟩⟩
    (.ok "https://cdn/a.png") (.ok ()) (.ok []) (.ok []) (.ok []) (.ok [])).1
    (Or.inr (Or.inr rfl))).1

/-! ## Theorems: upload before record -/

/-- C24: in `Events.handleSubmit`, `Feeds.handleSubmit` and `Settings.handleUpdateProfile`,
with a file selected (and the required fields filled in), the first effect is the upload. When
the upload is fulfilled with a URL, the next effect is the record request, and the reference
in its body is that URL, whatever the preview URL held by the form; when the upload is
rejected, the upload is the only request. -/
theorem upload_then_record (parseFloat : String → JsNum) (parse : String → Option Json)
    (stringify : Json → String) (b : Browser) (es : EventsState) (fs : FeedsState)
    (form : ProfileForm) (file : String)
    (postResult : Except String Unit) (putResult : Except AxiosError Unit)
    (getE : Except String (List Event)) (getP : Except String (List Post)) :
    (es.formData.image = some file →
      ¬ (es.formData.title = "" ∨ es.formData.eventDate = "" ∨ es.formData.price = "") →
      (∀ url, (Events.handleSubmit parseFloat es (.ok url) postResult getE).2.take 2 =
        [.request "POST" "/storage/upload/services" (some (.obj [("file", .str file)])),
         .request "POST" "/events" (some (Events.eventPayload parseFloat es.formData url))]) ∧
      (∀ msg, requests (Events.handleSubmit parseFloat es (.error msg) postResult getE).2 =
        [("POST", "/storage/upload/services")])) ∧
    (∀ (f : EventForm) url,
      propOf (Events.eventPayload parseFloat f url) "image_url" = some (.str url)) ∧
    (fs.formData.image = some file → fs.formData.content ≠ "" →
      (∀ url, (Feeds.handleSubmit fs (.ok url) postResult getP).2.take 2 =
        [.request "POST" "/storage/upload/services" (some (.obj [("file", .str file)])),
         .request "POST" "/feeds/posts"
          (some (.obj [("content", .str fs.formData.content), ("image_url", .str url)]))]) ∧
      (∀ msg, requests (Feeds.handleSubmit fs (.error msg) postResult getP).2 =
        [("POST", "/storage/upload/services")])) ∧
    (form.imageFile = some file →
      (∀ url, (handleUpdateProfile parse stringify b form (.ok url) putResult).2.2.take 2 =
        [.request "POST" "/storage/upload/avatars" (some (.obj [("file", .str file)])),
         .request "PUT" "/users/profile"
          (some (.obj [("full_name", .str form.full_name), ("job_title", .str form.job_title),
            ("bio", .str form.bio), ("profile_picture_url", .str url)]))]) ∧
      (∀ err, requests (handleUpdateProfile parse stringify b form (.error err) putResult).2.2 =
        [("POST", "/storage/upload/avatars")])) := by
  refine ⟨?_, fun _ _ => rfl, ?_, ?_⟩
  · intro himg hreq
    constructor
    · intro url
      unfold Events.handleSubmit
      rw [if_neg hreq]
      simp only [himg, Events.createEvent]
      cases postResult <;> rfl
    · intro msg
      unfold Events.handleSubmit
      rw [if_neg hreq]
      simp only [himg]
      rfl
  · intro himg hreq
    constructor
    · intro url
      unfold Feeds.handleSubmit
      rw [if_neg hreq]
      simp only [himg, Feeds.createPost]
      cases postResult <;> rfl
    · intro msg
      unfold Feeds.handleSubmit
      rw [if_neg hreq]
      simp only [himg]
      rfl
  · intro himg
    constructor
    · intro url
      unfold handleUpdateProfile
      simp only [himg, saveProfile, profilePayload]
      cases putResult with
      | error err => rfl
      | ok u =>
        cases hu : b.getItem "admin_user" with
        | none => rfl
        | some userStr =>
          by_cases he : userStr = ""
          · simp [he]
          · simp only [he, if_false]
            cases hp : parse userStr with
            | none => rfl
            | some j => cases j <;> rfl
    · intro err
      unfold handleUpdateProfile
      simp only [himg]
      rfl

/-- Witness of C24: a post with a picture; the body refers to the URL the upload returned,
not to the preview `blob:1`. -/
theorem upload_then_record_witness :
    (Feeds.handleSubmit ⟨[], ⟨"Hello", some "a.png", some "blob:1"⟩⟩
      (.ok "https://cdn/a.png") (.ok ()) (.ok [])).2.take 2 =
      [.request "POST" "/storage/upload/services" (some (.obj [("file", .str "a.png")])),
       .request "POST" "/feeds/posts"
        (some (.obj [("content", .str "Hello"), ("image_url", .str "https://cdn/a.png")]))] :=
  ((upload_then_record (fun _ => .nan) (fun _ => none) (fun _ => "") ⟨[], "/feeds", []⟩
    ⟨[], none, ⟨"", "", "", "", "", "", none, none⟩⟩
    ⟨[], ⟨"Hello", some "a.png", some "blob:1"⟩⟩ ⟨"", "", "", "", none⟩ "a.png"
    (.ok ()) (.ok ()) (.ok []) (.ok [])).2.2.1 rfl (by decide)).1 "https://cdn/a.png"

/-! ## Theorems: re-fetch after a mutation -/

/-- Counterexample for C22: removing an admin succeeds with one `DELETE` and no re-fetch; the
admin list is the local list without the removed entry. -/
theorem handleRemoveAdmin_no_refetch :
    requests (handleRemoveAdmin
      ⟨[⟨"a1", "ada@x.io"⟩, ⟨"a2", "bob@x.io"⟩], ⟨"", "", ""⟩⟩ "a1" true (.ok ())).2 =
      [("DELETE", "/admin/users/admins/a1")] ∧
    ("GET", "/admin/users/admins") ∉ requests (handleRemoveAdmin
      ⟨[⟨"a1", "ada@x.io"⟩, ⟨"a2", "bob@x.io"⟩], ⟨"", "", ""⟩⟩ "a1" true (.ok ())).2 ∧
    (handleRemoveAdmin
      ⟨[⟨"a1", "ada@x.io"⟩, ⟨"a2", "bob@x.io"⟩], ⟨"", "", ""⟩⟩ "a1" true (.ok ())).1.admins =
      [⟨"a2", "bob@x.io"⟩] := by
  refine ⟨rfl, ?_, ?_⟩
  · simp [handleRemoveAdmin, requests]
  · decide

/-- C22, amended: on success, reviewing a service, deleting or toggling an event, creating or
deleting a post, adding an admin and adding a category re-fetch the collection (the last
request is the `GET`) and hold afterwards what the fetch returned; removing an admin and
deleting a category issue the `DELETE` only and drop the entries of the given id from the
list held locally. -/
theorem refetch_after_mutation :
    (∀ (st : DashboardState) (sel : ServiceItem) (status : String) (data : List ServiceItem),
      st.selectedService = some sel →
      requests (Dashboard.handleReviewAction st status (.ok ()) (.ok data)).2 =
        [("PUT", "/admin/review-service/" ++ sel.id), ("GET", "/admin/stats"),
          ("GET", "/admin/services-queue")] ∧
      (Dashboard.handleReviewAction st status (.ok ()) (.ok data)).1.services = data) ∧
    (∀ (period : String) (st : ActivitiesState) (item : ServiceItem) (status : String)
      (data : List ServiceItem),
      requests (Activities.handleReviewAction period st (some item) status (.ok ())
        (.ok data)).2 =
        [("PUT", "/admin/review-service/" ++ item.id),
          ("GET", "/admin/activities/chart?period=" ++ period),
          ("GET", "/admin/services-queue")] ∧
      (Activities.handleReviewAction period st (some item) status (.ok ())
        (.ok data)).1.services = data) ∧
    (∀ (st : EventsState) (id : ℕ) (data : List Event),
      requests (Events.handleDelete st id true (.ok ()) (.ok data)).2 =
        [("DELETE", "/events/" ++ toString id), ("GET", "/events")] ∧
      (Events.handleDelete st id true (.ok ()) (.ok data)).1.events = data) ∧
    (∀ (st : EventsState) (event : Event) (isActive : Bool) (data : List Event),
      requests (Events.handleToggleStatus st event isActive (.ok ()) (.ok data)).2 =
        [("PUT", "/events/" ++ toString event.id ++ "/status"), ("GET", "/events")] ∧
      (Events.handleToggleStatus st event isActive (.ok ()) (.ok data)).1.events = data) ∧
    (∀ (st : FeedsState) (data : List Post),
      st.formData.content ≠ "" → st.formData.image = none →
      requests (Feeds.handleSubmit st (.ok "") (.ok ()) (.ok data)).2 =
        [("POST", "/feeds/posts"), ("GET", "/feeds/posts")] ∧
      (Feeds.handleSubmit st (.ok "") (.ok ()) (.ok data)).1.posts = data) ∧
    (∀ (st : FeedsState) (id : String) (data : List Post),
      requests (Feeds.handleDelete st id true (.ok ()) (.ok data)).2 =
        [("DELETE", "/feeds/posts/" ++ id), ("GET", "/feeds/posts")] ∧
      (Feeds.handleDelete st id true (.ok ()) (.ok data)).1.posts = data) ∧
    (∀ (st : AdminsState) (data : List Admin),
      st.newAdminForm.email ≠ "" → st.newAdminForm.password ≠ "" →
      requests (handleAddAdmin st (.ok ()) (.ok data)).2 =
        [("POST", "/admin/users/invite-admin"), ("GET", "/admin/users/admins")] ∧
      (handleAddAdmin st (.ok ()) (.ok data)).1.admins = data) ∧
    (∀ (st : State) (data : List Category),
      st.newCatForm.name ≠ "" →
      requests (handleAddCategory st (.ok ()) (.ok data)).2 =
        [("POST", "/admin/categories"), ("GET", "/admin/categories")] ∧
      (handleAddCategory st (.ok ()) (.ok data)).1.categories = data) ∧
    (∀ (st : AdminsState) (id : String),
      requests (handleRemoveAdmin st id true (.ok ())).2 =
        [("DELETE", "/admin/users/admins/" ++ id)] ∧
      (handleRemoveAdmin st id true (.ok ())).1.admins =
        st.admins.filter (fun a => a.id != id)) ∧
    (∀ (st : State) (id : String),
      requests (handleDeleteCategory st id true (.ok ())).2 =
        [("DELETE", "/admin/categories/" ++ id)] ∧
      (handleDeleteCategory st id true (.ok ())).1.categories =
        st.categories.filter (fun c => c.id != id)) := by
  refine ⟨?_, ?_, ?_, ?_, ?_, ?_, ?_, ?_, ?_, ?_⟩
  · intro st sel status data hsel
    simp [Dashboard.handleReviewAction, hsel, Dashboard.fetchData, requests]
  · intro period st item status data
    simp [Activities.handleReviewAction, Activities.fetchData, requests]
  · intro st id data
    simp [Events.handleDelete, Events.fetchEvents, requests]
  · intro st event isActive data
    simp [Events.handleToggleStatus, Events.fetchEvents, requests]
  · intro st data hc himg
    simp [Feeds.handleSubmit, hc, himg, Feeds.createPost, Feeds.fetchPosts, requests]
  · intro st id data
    simp [Feeds.handleDelete, Feeds.fetchPosts, requests]
  · intro st data he hp
    simp [handleAddAdmin, he, hp, requests]
  · intro st data hn
    simp [handleAddCategory, hn, requests]
  · intro st id
    simp [handleRemoveAdmin, requests]
  · intro st id
    simp [handleDeleteCategory, requests]

/-- Witness of C22: approving the selected service on the dashboard re-fetches the queue. -/
theorem refetch_after_mutation_witness :
    (Dashboard.handleReviewAction ⟨[⟨"s1", .val "pending"⟩], some ⟨"s1", .val "pending"⟩, ""⟩
      "active" (.ok ()) (.ok [⟨"s1", .val "active"⟩])).1.services = [⟨"s1", .val "active"⟩] :=
  (refetch_after_mutation.1 ⟨[⟨"s1", .val "pending"⟩], some ⟨"s1", .val "pending"⟩, ""⟩
    ⟨"s1", .val "pending"⟩ "active" [⟨"s1", .val "active"⟩] rfl).2

/-! ## Theorems: who writes the session -/

theorem getItem_setItem_ne (b : Browser) (k k2 v : String) (hne : k2 ≠ k) :
    (b.setItem k v).getItem k2 = b.getItem k2 :=
  lookup_setProp_ne _ _ k2 _ hne

/-- A fulfilled profile sync leaves every key but `admin_user` as it was. -/
theorem syncProfile_frame (parse : String → Option Json) (stringify : Json → String)
    (b : Browser) (data : Option Json) (k : String) (hk : k ≠ "admin_user") :
    (syncProfile parse stringify b (.ok data)).getItem k = b.getItem k := by
  unfold syncProfile
  cases data with
  | none => rfl
  | some fresh =>
    simp only
    split
    · rfl
    · cases hu : b.getItem "admin_user" with
      | none => rfl
      | some stored =>
        simp only
        split
        · rfl
        · cases hp : parse stored with
          | none => rfl
          | some j => cases j <;> first | rfl | exact getItem_setItem_ne _ _ _ _ hk

/-- Steps B and C of a fulfilled profile update leave every key but `admin_user` as it was. -/
theorem saveProfile_frame (parse : String → Option Json) (stringify : Json → String)
    (b : Browser) (form : ProfileForm) (url : String) (pre : List Effect) (k : String)
    (hk : k ≠ "admin_user") :
    (saveProfile parse stringify b form url pre (.ok ())).1.getItem k = b.getItem k := by
  unfold saveProfile
  simp only
  cases hu : b.getItem "admin_user" with
  | none => rfl
  | some userStr =>
    simp only
    split
    · rfl
    · cases hp : parse userStr with
      | none => rfl
      | some j => cases j <;> first | rfl | exact getItem_setItem_ne _ _ _ _ hk

/-- Counterexample for C21: with an empty object stored as user, a profile sync that brings
the name `Ada` rewrites `admin_user`. The two functions given are `JSON.parse` and
`JSON.stringify` on the values that occur. -/
theorem syncProfile_writes_admin_user :
    (syncProfile (fun _ => some (.obj []))
      (fun _ => "\x7b\"user_metadata\":\x7b\"full_name\":\"Ada\"\x7d\x7d")
      ⟨[("admin_token", "abc"), ("admin_user", "\x7b\x7d")], "/", []⟩
      (.ok (some (.obj [("full_name", .str "Ada")])))).getItem "admin_user" =
      some "\x7b\"user_metadata\":\x7b\"full_name\":\"Ada\"\x7d\x7d" ∧
    (syncProfile (fun _ => some (.obj []))
      (fun _ => "\x7b\"user_metadata\":\x7b\"full_name\":\"Ada\"\x7d\x7d")
      ⟨[("admin_token", "abc"), ("admin_user", "\x7b\x7d")], "/", []⟩
      (.ok (some (.obj [("full_name", .str "Ada")])))).getItem "admin_user" ≠
      (⟨[("admin_token", "abc"), ("admin_user", "\x7b\x7d")], "/", []⟩ : Browser).getItem
        "admin_user" := by
  constructor
  · decide
  · decide

/-- C21, amended: the Layout profile sync and the Settings profile update, when their requests
are fulfilled, write no key but `admin_user`: `admin_token` and every other key read as
before, and when no `admin_user` is stored they leave the storage as it was. When a request
is rejected they do to the browser what the response interceptor does. The credential is thus
written only by login, logout and the unauthorized-response handler; the cached profile is
also rewritten by the sync and by the update. -/
theorem session_writers (parse : String → Option Json) (stringify : Json → String)
    (b : Browser) (form : ProfileForm) :
    (∀ data k, k ≠ "admin_user" →
      (syncProfile parse stringify b (.ok data)).getItem k = b.getItem k) ∧
    (∀ data, (syncProfile parse stringify b (.ok data)).getItem "admin_token" =
      b.getItem "admin_token") ∧
    (∀ data, b.getItem "admin_user" = none →
      (syncProfile parse stringify b (.ok data)).localStorage = b.localStorage) ∧
    (∀ err, syncProfile parse stringify b (.error err) = (responseRejected b err).1) ∧
    (∀ url k, k ≠ "admin_user" →
      (handleUpdateProfile parse stringify b form (.ok url) (.ok ())).1.getItem k =
        b.getItem k) ∧
    (∀ url, (handleUpdateProfile parse stringify b form (.ok url) (.ok ())).1.getItem
      "admin_token" = b.getItem "admin_token") ∧
    (∀ url, b.getItem "admin_user" = none →
      (handleUpdateProfile parse stringify b form (.ok url) (.ok ())).1.localStorage =
        b.localStorage) ∧
    (∀ url err, (handleUpdateProfile parse stringify b form (.ok url) (.error err)).1 =
      (responseRejected b err).1) := by
  have hupd : ∀ url k, k ≠ "admin_user" →
      (handleUpdateProfile parse stringify b form (.ok url) (.ok ())).1.getItem k =
        b.getItem k := by
    intro url k hk
    unfold handleUpdateProfile
    cases form.imageFile with
    | none => exact saveProfile_frame parse stringify b form _ _ k hk
    | some file => exact saveProfile_frame parse stringify b form _ _ k hk
  refine ⟨fun data k hk => syncProfile_frame parse stringify b data k hk,
    fun data => syncProfile_frame parse stringify b data _ (by decide), ?_, fun _ => rfl,
    hupd, fun url => hupd url _ (by decide), ?_, ?_⟩
  · intro data hnone
    unfold syncProfile
    cases data with
    | none => rfl
    | some fresh =>
      simp only [hnone]
      split <;> rfl
  · intro url hnone
    unfold handleUpdateProfile
    cases form.imageFile <;> simp [saveProfile, hnone]
  · intro url err
    unfold handleUpdateProfile
    cases form.imageFile <;> rfl

/-- Witness of C21: the same sync leaves the stored token `abc` in place. -/
theorem session_writers_witness :
    (syncProfile (fun _ => some (.obj []))
      (fun _ => "\x7b\"user_metadata\":\x7b\"full_name\":\"Ada\"\x7d\x7d")
      ⟨[("admin_token", "abc"), ("admin_user", "\x7b\x7d")], "/", []⟩
      (.ok (some (.obj [("full_name", .str "Ada")])))).getItem "admin_token" = some "abc" :=
  ((session_writers (fun _ => some (.obj []))
      (fun _ => "\x7b\"user_metadata\":\x7b\"full_name\":\"Ada\"\x7d\x7d")
      ⟨[("admin_token", "abc"), ("admin_user", "\x7b\x7d")], "/", []⟩
      ⟨"", "", "", "", none⟩).1
    (some (.obj [("full_name", .str "Ada")])) "admin_token" (by decide)).trans (by decide)

end LifeKit
